import Mathlib

/-!
# bobcat_exporter: the scrape / translate / export contract

A shallow embedding of `main.go` of `pperzyna/bobcat_exporter`.

* A Go `string` is a sequence of bytes; here a byte is a natural number (below 256 for every
  real string) and a string is a `List Nat`.  String constants are written with `utf8`.
* A Go `float64` gauge value is represented by the exact number it denotes.  Every value the
  exporter produces is an integer (`0`, `1`, or the conversion of a 64-bit integer), so the
  carrier is `Int`; the conversion `float64(int64)` is `float64.ofInt`, which rounds to 53
  significant bits (nearest, ties to even) as IEEE 754 binary64 does.
* The channel `ch` handed to `Collect` is the list of samples sent so far, oldest first.
* The network (`http.Client.Get`, `ioutil.ReadAll`) and the decoding half of `encoding/json`
  are parameters of the model; `strconv.ParseInt` and the syntax check of `json.Unmarshal`
  are embedded from the Go standard library.
* The exporter's mutex serialises the collections; the model runs one collection at a time.
  Logging and the closing of response bodies have no effect on what is modelled and are
  left out.

Bytes are written as numbers: `43` is `+`, `45` is `-`, `48`..`57` are `0`..`9`, `65`..`90`
are `A`..`Z`, `95` is `_`, `97`..`122` are `a`..`z`; `98`, `111`, `120` are `b`, `o`, `x`.
-/

namespace Bobcat

/-! ## Strings and numbers -/

/-- Go `string`: a sequence of bytes. -/
abbrev GoString := List Nat

/-- The bytes of a string constant of the source (Go source text is UTF-8). -/
def utf8 (s : String) : GoString :=
  (s.data.flatMap String.utf8EncodeChar).map UInt8.toNat

/-- Go `float64`, restricted to the integer-valued numbers the exporter produces. -/
structure float64 where
  /-- The number the float denotes. -/
  val : Int
  deriving DecidableEq, Repr

instance (n : Nat) : OfNat float64 n := ⟨⟨n⟩⟩

/-- Halve `m` until it is below `2 ^ 53`, counting the halvings (at most `fuel` of them). -/
def float64.excessBitsAux : Nat → Nat → Nat
  | 0, _ => 0
  | fuel + 1, m => if m < 2 ^ 53 then 0 else float64.excessBitsAux fuel (m / 2) + 1

/-- Number of bits of `n` above the 53 bits of a binary64 significand. -/
def float64.excessBits (n : Nat) : Nat := float64.excessBitsAux n n

/-- Round the magnitude `n` to 53 significant bits, to nearest, ties to even. -/
def float64.roundNat (n : Nat) : Nat :=
  let e := float64.excessBits n
  let q := n / 2 ^ e
  let r := n % 2 ^ e
  if 2 * r > 2 ^ e ∨ (2 * r = 2 ^ e ∧ q % 2 = 1) then (q + 1) * 2 ^ e else q * 2 ^ e

/-- The conversion `float64(v)` of a Go integer `v` (an `int64`, or an `int`): the nearest
binary64 number.  No Go integer is large enough to overflow the exponent. -/
def float64.ofInt (v : Int) : float64 :=
  ⟨if v < 0 then -(float64.roundNat v.natAbs : Int) else (float64.roundNat v.natAbs : Int)⟩

/-! ## `strconv.ParseInt` (Go standard library, `strconv/atoi.go`, Go 1.13 and later) -/

/-- The error a `strconv` conversion reports. -/
inductive NumError where
  /-- `ErrSyntax`: the string does not have the right syntax. -/
  | ErrSyntax
  /-- `ErrRange`: the value is out of range for the target type. -/
  | ErrRange
  /-- `baseError`: invalid base. -/
  | ErrBase
  /-- `bitSizeError`: invalid bit size. -/
  | ErrBitSize
  deriving DecidableEq, Repr

/-- `IntSize`: the size in bits of an `int`. -/
def IntSize : Nat := 64

/-- `maxUint64`. -/
def maxUint64 : Nat := 2 ^ 64 - 1

/-- `lower(c)`: `c | ('x' - 'X')`, the lower-case of an ASCII letter. -/
def lower (c : Nat) : Nat := c ||| 0x20

/-- The value of `x` as a `uint64`: arithmetic on `uint64` wraps around. -/
def uint64 (x : Nat) : Nat := x % 2 ^ 64

/-- The conversion `int64(u)` of an unsigned 64-bit value: two's complement. -/
def int64 (u : Nat) : Int :=
  if u % 2 ^ 64 < 2 ^ 63 then (u % 2 ^ 64 : Nat) else ((u % 2 ^ 64 : Nat) : Int) - 2 ^ 64

/-- Negation of an `int64`, wrapping. -/
def negInt64 (n : Int) : Int :=
  int64 ((-n) % 2 ^ 64).toNat

/-- The loop of `underscoreOK` over the number proper.  `saw` tracks the last character
seen: `'^'` for the beginning of the number, `'0'` for a digit or base prefix, `'_'` for an
underscore, `'!'` for none of the above. -/
def underscoreOKLoop (hex : Bool) : GoString → Nat → Bool
  | [], saw => saw ≠ 95
  | c :: s, saw =>
    -- Digits are always okay.
    if (48 ≤ c ∧ c ≤ 57) ∨ (hex = true ∧ 97 ≤ lower c ∧ lower c ≤ 102) then
      underscoreOKLoop hex s 48
    -- Underscore must follow digit.
    else if c = 95 then
      if saw ≠ 48 then false else underscoreOKLoop hex s 95
    -- Underscore must also be followed by digit.
    else if saw = 95 then false
    -- Saw non-digit, non-underscore.
    else underscoreOKLoop hex s 33

/-- `underscoreOK(s)`: whether the underscores in `s` are allowed: only between digits or
between a base prefix and a digit. -/
def underscoreOK (s : GoString) : Bool :=
  -- Optional sign.
  let s := if s.length ≥ 1 ∧ (s[0]? = some 45 ∨ s[0]? = some 43) then s.drop 1 else s
  -- Optional base prefix.
  if s.length ≥ 2 ∧ s[0]? = some 48 ∧
      (lower (s.getD 1 0) = 98 ∨ lower (s.getD 1 0) = 111 ∨ lower (s.getD 1 0) = 120) then
    underscoreOKLoop (lower (s.getD 1 0) = 120) (s.drop 2) 48
  else
    underscoreOKLoop false s 94

/-- The digit a byte stands for in the loop of `ParseUint`: `0`-`9`, then the letters of
either case from 10 on; `none` for any other byte. -/
def digitValue (c : Nat) : Option Nat :=
  if 48 ≤ c ∧ c ≤ 57 then some (c - 48)
  else if 97 ≤ lower c ∧ lower c ≤ 122 then some (lower c - 97 + 10)
  else none

/-- The digit loop of `ParseUint`: `n` is the value so far, `underscores` whether an
underscore was skipped.  The result is the returned value and error, and the flag. -/
def ParseUintLoop (base : Nat) (base0 : Bool) (cutoff maxVal : Nat) :
    GoString → Nat → Bool → (Nat × Option NumError) × Bool
  | [], n, underscores => ((n, none), underscores)
  | c :: s, n, underscores =>
    if c = 95 ∧ base0 = true then
      ParseUintLoop base base0 cutoff maxVal s n true
    else
      match digitValue c with
      | none => ((0, some .ErrSyntax), underscores)
      | some d =>
        if d ≥ base then ((0, some .ErrSyntax), underscores)
        else if n ≥ cutoff then
          -- n*base overflows
          ((maxVal, some .ErrRange), underscores)
        else
          let n := uint64 (n * base)
          let n1 := uint64 (n + d)
          if n1 < n ∨ n1 > maxVal then
            -- n+d overflows
            ((maxVal, some .ErrRange), underscores)
          else
            ParseUintLoop base base0 cutoff maxVal s n1 underscores

/-- `strconv.ParseUint(s, base, bitSize)`: the returned value and error.  `maxVal` is
`uint64(1)<<uint(bitSize) - 1`, which is `2 ^ bitSize - 1` for every bit size up to 64. -/
def ParseUint (s : GoString) (base : Nat) (bitSize : Int) : Nat × Option NumError :=
  if s = [] then (0, some .ErrSyntax)
  else
    let base0 : Bool := base = 0
    let s0 := s
    -- Look for octal, hex prefix.
    let pre : Option (Nat × GoString) :=
      if 2 ≤ base ∧ base ≤ 36 then some (base, s)
      else if base = 0 then
        if s[0]? = some 48 then
          if s.length ≥ 3 ∧ lower (s.getD 1 0) = 98 then some (2, s.drop 2)
          else if s.length ≥ 3 ∧ lower (s.getD 1 0) = 111 then some (8, s.drop 2)
          else if s.length ≥ 3 ∧ lower (s.getD 1 0) = 120 then some (16, s.drop 2)
          else some (8, s.drop 1)
        else some (10, s)
      else none
    match pre with
    | none => (0, some .ErrBase)
    | some (base, s) =>
      let bitSize := if bitSize = 0 then (IntSize : Int) else bitSize
      if bitSize < 0 ∨ bitSize > 64 then (0, some .ErrBitSize)
      else
        -- Cutoff is the smallest number such that cutoff*base > maxUint64.
        let cutoff := maxUint64 / base + 1
        let maxVal := 2 ^ bitSize.toNat - 1
        match ParseUintLoop base base0 cutoff maxVal s 0 false with
        | ((n, some err), _) => (n, some err)
        | ((n, none), underscores) =>
          if underscores = true ∧ underscoreOK s0 = false then (0, some .ErrSyntax)
          else (n, none)

/-- `strconv.ParseInt(s, base, bitSize)`: the returned value and error. -/
def ParseInt (s : GoString) (base : Nat) (bitSize : Int) : Int × Option NumError :=
  if s = [] then (0, some .ErrSyntax)
  else
    -- Pick off leading sign.
    let s0 := s
    let (neg, s) : Bool × GoString :=
      if s0[0]? = some 43 then (false, s0.drop 1)
      else if s0[0]? = some 45 then (true, s0.drop 1)
      else (false, s0)
    -- Convert unsigned and check range.
    match ParseUint s base bitSize with
    | (_, some .ErrSyntax) => (0, some .ErrSyntax)
    | (_, some .ErrBase) => (0, some .ErrBase)
    | (_, some .ErrBitSize) => (0, some .ErrBitSize)
    | (un, _) =>
      let bitSize := if bitSize = 0 then (IntSize : Int) else bitSize
      let cutoff : Nat := 2 ^ (bitSize - 1).toNat
      if neg = false ∧ un ≥ cutoff then (int64 (cutoff - 1), some .ErrRange)
      else if neg = true ∧ un > cutoff then (negInt64 (int64 cutoff), some .ErrRange)
      else
        let n := int64 un
        (if neg then negInt64 n else n, none)

/-! ## The coercion rules (`main.go`, lines 224-244) -/

/-- `parseString`: the string parsed as an integer of any base the prefix announces, as a
`float64`; `0` when `strconv.ParseInt` reports an error. -/
def parseString (str : GoString) : float64 :=
  match ParseInt str 0 64 with
  | (_, some _) => 0
  | (value, none) => float64.ofInt value

/-- `parseTemperature`: `1` for the unit string `"°C"`, `0` otherwise. -/
def parseTemperature (str : GoString) : float64 :=
  if str = utf8 "°C" then 1 else 0

/-- `parseStatus`: `1` for the status string `"Synced"`, `0` otherwise. -/
def parseStatus (str : GoString) : float64 :=
  if str = utf8 "Synced" then 1 else 0

/-! ## Integer literals, as the specification words them

The specification speaks of the strings that are "valid integer literals (decimal or
recognized alternate base prefix)", recognised by "a generic integer parser", and of "the
parsed value".  The definitions below say what that is, without reference to the code: the
integer literals of Go, with an optional sign in front, and the number they denote.

    int_lit     = decimal_lit | binary_lit | octal_lit | hex_lit .
    decimal_lit = "0" | ( "1" … "9" ) [ [ "_" ] decimal_digits ] .
    binary_lit  = "0" ( "b" | "B" ) [ "_" ] binary_digits .
    octal_lit   = "0" [ "o" | "O" ] [ "_" ] octal_digits .
    hex_lit     = "0" ( "x" | "X" ) [ "_" ] hex_digits .
    digits      = digit { [ "_" ] digit } .
-/

namespace IntLiteral

/-- The value of the digit `c` in `base`: `0`-`9`, `a`-`f` and `A`-`F` are the digits, and a
digit of `base` is one whose value is below `base`. -/
def digit (base c : Nat) : Option Nat :=
  if 48 ≤ c ∧ c ≤ 57 ∧ c - 48 < base then some (c - 48)
  else if 97 ≤ c ∧ c ≤ 102 ∧ c - 87 < base then some (c - 87)
  else if 65 ≤ c ∧ c ≤ 70 ∧ c - 55 < base then some (c - 55)
  else none

/-- Put the digit `d?` in front of the digits `ds?`, when both are there. -/
def consDigit (d? : Option Nat) (ds? : Option (List Nat)) : Option (List Nat) :=
  match d?, ds? with
  | some d, some ds => some (d :: ds)
  | _, _ => none

/-- `{ [ "_" ] digit }`: any number of digits, each optionally preceded by one underscore.
The result is the digits, most significant first. -/
def moreDigits (base : Nat) : GoString → Option (List Nat)
  | [] => some []
  | c :: s =>
    if c = 95 then
      match s with
      | [] => none
      | c' :: s' => consDigit (digit base c') (moreDigits base s')
    else consDigit (digit base c) (moreDigits base s)

/-- `digits = digit { [ "_" ] digit }`. -/
def digits (base : Nat) : GoString → Option (List Nat)
  | [] => none
  | c :: s => consDigit (digit base c) (moreDigits base s)

/-- `[ "_" ] digits`: what follows a base prefix. -/
def afterPrefix (base : Nat) : GoString → Option (List Nat)
  | [] => none
  | c :: s => if c = 95 then digits base s else digits base (c :: s)

/-- The number the digits `ds` (most significant first) denote in `base`. -/
def number (base : Nat) (ds : List Nat) : Nat :=
  ds.foldl (fun n d => n * base + d) 0

/-- The value of an unsigned integer literal:
`"0"`, a decimal literal `1`-`9` followed by `{ [ "_" ] digit }`,
`0b` or `0B` and binary digits, `0o` or `0O` or just `0` and octal digits,
`0x` or `0X` and hexadecimal digits.  `none` when `s` is no such literal. -/
def unsigned (s : GoString) : Option Nat :=
  match s with
  | [] => none
  | c :: s' =>
    if c = 48 then
      match s' with
      | [] => some 0
      | p :: s'' =>
        if p = 98 ∨ p = 66 then (afterPrefix 2 s'').map (number 2)
        else if p = 111 ∨ p = 79 then (afterPrefix 8 s'').map (number 8)
        else if p = 120 ∨ p = 88 then (afterPrefix 16 s'').map (number 16)
        else (afterPrefix 8 s').map (number 8)
    else (digits 10 s).map (number 10)

/-- The value of an integer literal with an optional sign `+` or `-`; `none` when `s` is not
a valid integer literal. -/
def value (s : GoString) : Option Int :=
  match s with
  | [] => none
  | c :: s' =>
    if c = 43 then (unsigned s').map (fun n => (n : Int))
    else if c = 45 then (unsigned s').map (fun n => -(n : Int))
    else (unsigned s).map (fun n => (n : Int))

end IntLiteral

/-! ## The syntax check of `json.Unmarshal` (Go standard library, `encoding/json/scanner.go`) -/

namespace json

/-- What a scanner step reports about the byte it consumed. -/
inductive ScanCode where
  | scanContinue | scanBeginLiteral | scanBeginObject | scanObjectKey | scanObjectValue
  | scanEndObject | scanBeginArray | scanArrayValue | scanEndArray | scanSkipSpace
  | scanEnd | scanError
  deriving DecidableEq, Repr

/-- An entry of the scanner's stack of composite values being scanned. -/
inductive ParseState where
  | parseObjectKey | parseObjectValue | parseArrayValue
  deriving DecidableEq, Repr

/-- The state functions of the scanner; `scanner.step` holds one of them. -/
inductive Step where
  | stateBeginValueOrEmpty | stateBeginValue | stateBeginStringOrEmpty | stateBeginString
  | stateEndValue | stateEndTop | stateInString | stateInStringEsc | stateInStringEscU
  | stateInStringEscU1 | stateInStringEscU12 | stateInStringEscU123 | stateNeg | state1
  | state0 | stateDot | stateDot0 | stateE | stateESign | stateE0 | stateT | stateTr
  | stateTru | stateF | stateFa | stateFal | stateFals | stateN | stateNu | stateNul
  | stateError
  deriving DecidableEq, Repr

/-- The JSON scanner: `parseState` is the stack, innermost value first; `err` records that a
syntax error was found. -/
structure scanner where
  step : Step
  endTop : Bool
  parseState : List ParseState
  err : Bool
  deriving DecidableEq, Repr

/-- `maxNestingDepth`. -/
def maxNestingDepth : Nat := 10000

/-- `scanner.reset`. -/
def scanner.reset : scanner :=
  { step := .stateBeginValue, endTop := false, parseState := [], err := false }

/-- `scanner.error`: record an error and stop scanning. -/
def scanner.error (s : scanner) : scanner × ScanCode :=
  ({ s with step := .stateError, err := true }, .scanError)

/-- `scanner.pushParseState`. -/
def scanner.pushParseState (s : scanner) (newParseState : ParseState) (successState : ScanCode) :
    scanner × ScanCode :=
  let s := { s with parseState := newParseState :: s.parseState }
  if s.parseState.length ≤ maxNestingDepth then (s, successState) else s.error

/-- `scanner.popParseState`. -/
def scanner.popParseState (s : scanner) : scanner :=
  let s := { s with parseState := s.parseState.drop 1 }
  if s.parseState.length = 0 then { s with step := .stateEndTop, endTop := true }
  else { s with step := .stateEndValue }

/-- `isSpace`. -/
def isSpace (c : Nat) : Bool := c ≤ 32 ∧ (c = 32 ∨ c = 9 ∨ c = 13 ∨ c = 10)

/-- Whether `c` is `0`-`9`, `a`-`f` or `A`-`F`. -/
def isHex (c : Nat) : Bool := (48 ≤ c ∧ c ≤ 57) ∨ (97 ≤ c ∧ c ≤ 102) ∨ (65 ≤ c ∧ c ≤ 70)

/-- `stateEndTop`: after the top-level value; only space may follow. -/
def stateEndTop (s : scanner) (c : Nat) : scanner × ScanCode :=
  if isSpace c = false then ((s.error).1, .scanEnd) else (s, .scanEnd)

/-- `stateEndValue`: after a value (a literal, or a closed object or array). -/
def stateEndValue (s : scanner) (c : Nat) : scanner × ScanCode :=
  match s.parseState with
  | [] => stateEndTop { s with step := .stateEndTop, endTop := true } c
  | ps :: rest =>
    if isSpace c then ({ s with step := .stateEndValue }, .scanSkipSpace)
    else
      match ps with
      | .parseObjectKey =>
        if c = 58 then
          ({ s with parseState := .parseObjectValue :: rest, step := .stateBeginValue },
            .scanObjectKey)
        else s.error
      | .parseObjectValue =>
        if c = 44 then
          ({ s with parseState := .parseObjectKey :: rest, step := .stateBeginString },
            .scanObjectValue)
        else if c = 125 then (s.popParseState, .scanEndObject)
        else s.error
      | .parseArrayValue =>
        if c = 44 then ({ s with step := .stateBeginValue }, .scanArrayValue)
        else if c = 93 then (s.popParseState, .scanEndArray)
        else s.error

/-- `stateBeginValue`: at the beginning of a value. -/
def stateBeginValue (s : scanner) (c : Nat) : scanner × ScanCode :=
  if isSpace c then (s, .scanSkipSpace)
  else if c = 123 then
    scanner.pushParseState { s with step := .stateBeginStringOrEmpty } .parseObjectKey
      .scanBeginObject
  else if c = 91 then
    scanner.pushParseState { s with step := .stateBeginValueOrEmpty } .parseArrayValue
      .scanBeginArray
  else if c = 34 then ({ s with step := .stateInString }, .scanBeginLiteral)
  else if c = 45 then ({ s with step := .stateNeg }, .scanBeginLiteral)
  else if c = 48 then ({ s with step := .state0 }, .scanBeginLiteral)
  else if c = 116 then ({ s with step := .stateT }, .scanBeginLiteral)
  else if c = 102 then ({ s with step := .stateF }, .scanBeginLiteral)
  else if c = 110 then ({ s with step := .stateN }, .scanBeginLiteral)
  else if 49 ≤ c ∧ c ≤ 57 then ({ s with step := .state1 }, .scanBeginLiteral)
  else s.error

/-- `stateBeginString`: at the beginning of an object key. -/
def stateBeginString (s : scanner) (c : Nat) : scanner × ScanCode :=
  if isSpace c then (s, .scanSkipSpace)
  else if c = 34 then ({ s with step := .stateInString }, .scanBeginLiteral)
  else s.error

/-- `state0`: after a leading `0` of a number. -/
def state0 (s : scanner) (c : Nat) : scanner × ScanCode :=
  if c = 46 then ({ s with step := .stateDot }, .scanContinue)
  else if c = 101 ∨ c = 69 then ({ s with step := .stateE }, .scanContinue)
  else stateEndValue s c

/-- `stateESign`: after the `e` and optional sign of an exponent. -/
def stateESign (s : scanner) (c : Nat) : scanner × ScanCode :=
  if 48 ≤ c ∧ c ≤ 57 then ({ s with step := .stateE0 }, .scanContinue) else s.error

/-- The byte `c` expected inside a keyword, leading to the state `next`. -/
def expectByte (s : scanner) (c want : Nat) (next : Step) : scanner × ScanCode :=
  if c = want then ({ s with step := next }, .scanContinue) else s.error

/-- One call `s.step(s, c)`. -/
def scanner.doStep (s : scanner) (c : Nat) : scanner × ScanCode :=
  match s.step with
  | .stateBeginValueOrEmpty =>
    if isSpace c then (s, .scanSkipSpace)
    else if c = 93 then stateEndValue s c
    else stateBeginValue s c
  | .stateBeginValue => stateBeginValue s c
  | .stateBeginStringOrEmpty =>
    if isSpace c then (s, .scanSkipSpace)
    else if c = 125 then
      stateEndValue { s with parseState := .parseObjectValue :: s.parseState.drop 1 } c
    else stateBeginString s c
  | .stateBeginString => stateBeginString s c
  | .stateEndValue => stateEndValue s c
  | .stateEndTop => stateEndTop s c
  | .stateInString =>
    if c = 34 then ({ s with step := .stateEndValue }, .scanContinue)
    else if c = 92 then ({ s with step := .stateInStringEsc }, .scanContinue)
    else if c < 32 then s.error
    else (s, .scanContinue)
  | .stateInStringEsc =>
    if c = 98 ∨ c = 102 ∨ c = 110 ∨ c = 114 ∨ c = 116 ∨ c = 92 ∨ c = 47 ∨ c = 34 then
      ({ s with step := .stateInString }, .scanContinue)
    else if c = 117 then ({ s with step := .stateInStringEscU }, .scanContinue)
    else s.error
  | .stateInStringEscU =>
    if isHex c then ({ s with step := .stateInStringEscU1 }, .scanContinue) else s.error
  | .stateInStringEscU1 =>
    if isHex c then ({ s with step := .stateInStringEscU12 }, .scanContinue) else s.error
  | .stateInStringEscU12 =>
    if isHex c then ({ s with step := .stateInStringEscU123 }, .scanContinue) else s.error
  | .stateInStringEscU123 =>
    if isHex c then ({ s with step := .stateInString }, .scanContinue) else s.error
  | .stateNeg =>
    if c = 48 then ({ s with step := .state0 }, .scanContinue)
    else if 49 ≤ c ∧ c ≤ 57 then ({ s with step := .state1 }, .scanContinue)
    else s.error
  | .state1 =>
    if 48 ≤ c ∧ c ≤ 57 then ({ s with step := .state1 }, .scanContinue) else state0 s c
  | .state0 => state0 s c
  | .stateDot =>
    if 48 ≤ c ∧ c ≤ 57 then ({ s with step := .stateDot0 }, .scanContinue) else s.error
  | .stateDot0 =>
    if 48 ≤ c ∧ c ≤ 57 then (s, .scanContinue)
    else if c = 101 ∨ c = 69 then ({ s with step := .stateE }, .scanContinue)
    else stateEndValue s c
  | .stateE =>
    if c = 43 ∨ c = 45 then ({ s with step := .stateESign }, .scanContinue)
    else stateESign s c
  | .stateESign => stateESign s c
  | .stateE0 => if 48 ≤ c ∧ c ≤ 57 then (s, .scanContinue) else stateEndValue s c
  | .stateT => expectByte s c 114 .stateTr
  | .stateTr => expectByte s c 117 .stateTru
  | .stateTru => expectByte s c 101 .stateEndValue
  | .stateF => expectByte s c 97 .stateFa
  | .stateFa => expectByte s c 108 .stateFal
  | .stateFal => expectByte s c 115 .stateFals
  | .stateFals => expectByte s c 101 .stateEndValue
  | .stateN => expectByte s c 117 .stateNu
  | .stateNu => expectByte s c 108 .stateNul
  | .stateNul => expectByte s c 108 .stateEndValue
  | .stateError => (s, .scanError)

/-- `scanner.eof`: the input has ended; `scanError` unless a top-level value is complete. -/
def scanner.eof (s : scanner) : ScanCode :=
  if s.err then .scanError
  else if s.endTop then .scanEnd
  else
    let s := (s.doStep 32).1
    if s.endTop then .scanEnd else .scanError

/-- The loop of `checkValid` over the bytes of the input. -/
def checkValidLoop : List Nat → scanner → Bool
  | [], scan => scan.eof ≠ .scanError
  | c :: data, scan =>
    match scan.doStep c with
    | (_, .scanError) => false
    | (scan, _) => checkValidLoop data scan

/-- `checkValid(data, scan)`: whether `data` is a syntactically valid JSON encoding
(`true` where the Go function returns a `nil` error). -/
def checkValid (data : List Nat) : Bool := checkValidLoop data scanner.reset

/-- The decoding half of `json.Unmarshal` for a destination of type `α`: `d.unmarshal(v)`
on syntactically valid input gives the updated destination and whether it reports an error.
It is reflection-driven library code and is left as a parameter. -/
abbrev Decoder (α : Type) := List Nat → α → α × Bool

/-- `json.Unmarshal(data, &v)`: the destination afterwards and whether an error is returned.
The input is checked for well-formedness first, so that a syntax error leaves the
destination as it was. -/
def Unmarshal {α : Type} (unmarshal : Decoder α) (data : List Nat) (v : α) : α × Bool :=
  if checkValid data = false then (v, true) else unmarshal data v

end json

/-! ## The exporter (`main.go`) -/

/-- `namespace`: the prefix of every metric name. -/
def metricNamespace : String := "bobcat"

/-- The descriptors of the exporter's metrics, named after the fields that hold them. -/
inductive Desc where
  | bobcatUp | bobcatStatus | bobcatStatusGap | bobcatStatusMinerHeight
  | bobcatStatusBlockchainHeight | bobcatStatusEpoch | bobcatTemperatureUnit
  | bobcatTemperatureTemp0 | bobcatTemperatureTemp1 | totalScrapes
  deriving DecidableEq, Repr

/-- The `Name` each metric is created with in `NewExporter`. -/
def Desc.Name : Desc → String
  | .bobcatUp => "up"
  | .bobcatStatus => "status"
  | .bobcatStatusGap => "status_gap"
  | .bobcatStatusMinerHeight => "status_miner_height"
  | .bobcatStatusBlockchainHeight => "status_blockchain_height"
  | .bobcatStatusEpoch => "status_epoch"
  | .bobcatTemperatureUnit => "temperature_unit"
  | .bobcatTemperatureTemp0 => "temperature_temp0"
  | .bobcatTemperatureTemp1 => "temperature_temp1"
  | .totalScrapes => "total_scrapes"

/-- The fully qualified metric name. -/
def Desc.fqName (d : Desc) : String := metricNamespace ++ "_" ++ d.Name

/-- A sample sent on the channel: `prometheus.MustNewConstMetric(desc, GaugeValue, value)`. -/
structure Metric where
  desc : Desc
  value : float64
  deriving DecidableEq, Repr

/-- `prometheus.MustNewConstMetric(desc, prometheus.GaugeValue, value)`. -/
def MustNewConstMetric (desc : Desc) (value : float64) : Metric := ⟨desc, value⟩

/-- `temperature`: the document served at `/temp.json`. -/
structure temperature where
  Timestamp : GoString
  Temp0 : Int
  Temp1 : Int
  Unit : GoString
  deriving DecidableEq, Repr

/-- `status`: the document served at `/status.json`. -/
structure status where
  Status : GoString
  Gap : GoString
  MinerHeight : GoString
  BlockchainHeight : GoString
  Epoch : GoString
  deriving DecidableEq, Repr

/-- The zero value of `temperature` (`var temperature temperature`). -/
def temperature.zero : temperature := { Timestamp := [], Temp0 := 0, Temp1 := 0, Unit := [] }

/-- The zero value of `status` (`var status status`). -/
def status.zero : status :=
  { Status := [], Gap := [], MinerHeight := [], BlockchainHeight := [], Epoch := [] }

/-- An `io.ReadCloser` as `scrape` uses it: what `ioutil.ReadAll` returns for it, the bytes
read, or `none` for a read error. -/
structure ReadCloser where
  ReadAll : Option (List Nat)
  deriving DecidableEq, Repr

/-- The error a fetch reports. -/
inductive FetchError where
  /-- The error `client.Get` returned (connection failure, timeout, ...). -/
  | transport (msg : String)
  /-- `fmt.Errorf("HTTP status %d", resp.StatusCode)`. -/
  | httpStatus (StatusCode : Int)
  deriving DecidableEq, Repr

/-- The part of an `http.Response` that the fetcher looks at. -/
structure Response where
  StatusCode : Int
  Body : ReadCloser
  deriving DecidableEq, Repr

/-- `fetchHTTP(uri, timeout)`: the fetcher.  `Get` is `client.Get` of the client built from
`timeout`: what the request of a URL gives. -/
def fetchHTTP (Get : GoString → Except FetchError Response) (uri : GoString) :
    GoString → Except FetchError ReadCloser :=
  fun endpoint =>
    match Get (uri ++ endpoint) with
    | .error err => .error err
    | .ok resp =>
      if ¬ (resp.StatusCode ≥ 200 ∧ resp.StatusCode < 300) then
        .error (.httpStatus resp.StatusCode)
      else .ok resp.Body

/-- `Exporter`: the target and how to fetch from it. -/
structure Exporter where
  uri : GoString
  fetch : GoString → Except FetchError ReadCloser

/-- The two decoders `json.Unmarshal` uses for the documents. -/
structure Decoders where
  status : json.Decoder status
  temperature : json.Decoder temperature

/-- What the methods of the exporter act on: the value of the counter `totalScrapes`, the
samples sent on the channel `ch` and the endpoints passed to `fetch`, oldest first. -/
structure State where
  totalScrapes : Nat
  ch : List Metric
  requests : List GoString
  deriving DecidableEq, Repr

/-- The send `ch <- m`. -/
def State.send (σ : State) (m : Metric) : State := { σ with ch := σ.ch ++ [m] }

/-- The state when `fetch(endpoint)` is called: the call is recorded. -/
def State.request (σ : State) (endpoint : String) : State :=
  { σ with requests := σ.requests ++ [utf8 endpoint] }

/-- `Exporter.scrape`: the value returned for `up`, and the state afterwards. -/
def Exporter.scrape (e : Exporter) (dec : Decoders) (σ : State) : float64 × State :=
  let σ := { σ with totalScrapes := σ.totalScrapes + 1 }
  -- ENDPOINT: /status.json
  let σ := σ.request "/status.json"
  match e.fetch (utf8 "/status.json") with
  | .error _ => (0, σ)
  | .ok bodyStatus =>
    match bodyStatus.ReadAll with
    | none => (0, σ)
    | some bodyStatusAll =>
      let status := (json.Unmarshal dec.status bodyStatusAll status.zero).1
      let σ := σ.send (MustNewConstMetric .bobcatStatus (parseStatus status.Status))
      let σ := σ.send (MustNewConstMetric .bobcatStatusGap (parseString status.Gap))
      let σ := σ.send
        (MustNewConstMetric .bobcatStatusMinerHeight (parseString status.MinerHeight))
      let σ := σ.send
        (MustNewConstMetric .bobcatStatusBlockchainHeight (parseString status.BlockchainHeight))
      let σ := σ.send (MustNewConstMetric .bobcatStatusEpoch (parseString status.Epoch))
      -- ENDPOINT: /temp.json
      let σ := σ.request "/temp.json"
      match e.fetch (utf8 "/temp.json") with
      | .error _ => (0, σ)
      | .ok bodyTemp =>
        match bodyTemp.ReadAll with
        | none => (0, σ)
        | some bodyTempAll =>
          let temperature := (json.Unmarshal dec.temperature bodyTempAll temperature.zero).1
          let σ := σ.send
            (MustNewConstMetric .bobcatTemperatureUnit (parseTemperature temperature.Unit))
          let σ := σ.send
            (MustNewConstMetric .bobcatTemperatureTemp0 (float64.ofInt temperature.Temp0))
          let σ := σ.send
            (MustNewConstMetric .bobcatTemperatureTemp1 (float64.ofInt temperature.Temp1))
          (1, σ)

/-- `Exporter.Collect`: one collection, run under the exporter's mutex. -/
def Exporter.Collect (e : Exporter) (dec : Decoders) (σ : State) : State :=
  let (up, σ) := e.scrape dec σ
  σ.send (MustNewConstMetric .bobcatUp up)

/-- `Exporter.Describe`: the descriptors sent on the channel of descriptors. -/
def Exporter.Describe (_e : Exporter) : List Desc :=
  [.bobcatStatus, .bobcatStatusGap, .bobcatStatusMinerHeight, .bobcatStatusBlockchainHeight,
    .bobcatStatusEpoch, .bobcatUp, .totalScrapes]

/-- Successive collections.  The target may answer differently each time, so each collection
comes with the exporter as its `fetch` behaves during it. -/
def collections (dec : Decoders) : List Exporter → State → State
  | [], σ => σ
  | e :: es, σ => collections dec es (e.Collect dec σ)

/-! ## Reading the outcome of a collection -/

/-- The body a fetch of `endpoint` delivers when the fetch and the reading of its body both
succeed; `none` when either fails. -/
def Exporter.fetched (e : Exporter) (endpoint : String) : Option (List Nat) :=
  match e.fetch (utf8 endpoint) with
  | .error _ => none
  | .ok body => body.ReadAll

/-- The samples sent on the channel between the states `σ` and `σ'`. -/
def sent (σ σ' : State) : List Metric := σ'.ch.drop σ.ch.length

/-- The endpoints fetched between the states `σ` and `σ'`. -/
def requested (σ σ' : State) : List GoString := σ'.requests.drop σ.requests.length

/-- The status document `scrape` decodes from the body `data`. -/
def decodedStatus (dec : Decoders) (data : List Nat) : status :=
  (json.Unmarshal dec.status data status.zero).1

/-- The temperature document `scrape` decodes from the body `data`. -/
def decodedTemperature (dec : Decoders) (data : List Nat) : temperature :=
  (json.Unmarshal dec.temperature data temperature.zero).1

/-- The five samples `scrape` sends for a status document. -/
def statusSamples (st : status) : List Metric :=
  [⟨.bobcatStatus, parseStatus st.Status⟩, ⟨.bobcatStatusGap, parseString st.Gap⟩,
    ⟨.bobcatStatusMinerHeight, parseString st.MinerHeight⟩,
    ⟨.bobcatStatusBlockchainHeight, parseString st.BlockchainHeight⟩,
    ⟨.bobcatStatusEpoch, parseString st.Epoch⟩]

/-- The three samples `scrape` sends for a temperature document. -/
def temperatureSamples (t : temperature) : List Metric :=
  [⟨.bobcatTemperatureUnit, parseTemperature t.Unit⟩,
    ⟨.bobcatTemperatureTemp0, float64.ofInt t.Temp0⟩,
    ⟨.bobcatTemperatureTemp1, float64.ofInt t.Temp1⟩]

/-! ## The scenarios of the specification -/

/-- The state before the first collection. -/
def State.init : State := { totalScrapes := 0, ch := [], requests := [] }

/-- The status body of the scenario. -/
def scenarioStatusBody : List Nat :=
  utf8 ("\x7b\"status\":\"Synced\",\"gap\":\"0\",\"miner_height\":\"1234\"," ++
    "\"blockchain_height\":\"1234\",\"epoch\":\"42\"\x7d")

/-- The temperature body of the scenario. -/
def scenarioTempBody : List Nat :=
  utf8 "\x7b\"temp0\":45,\"temp1\":50,\"unit\":\"°C\"\x7d"

/-- The status document of the scenario. -/
def scenarioStatus : status :=
  { Status := utf8 "Synced", Gap := utf8 "0", MinerHeight := utf8 "1234",
    BlockchainHeight := utf8 "1234", Epoch := utf8 "42" }

/-- The temperature document of the scenario. -/
def scenarioTemperature : temperature :=
  { Timestamp := [], Temp0 := 45, Temp1 := 50, Unit := utf8 "°C" }

/-- Decoders that decode the two bodies of the scenario to their documents, and leave the
destination as it is for any other input. -/
def scenarioDecoders : Decoders where
  status := fun data v => if data = scenarioStatusBody then (scenarioStatus, false) else (v, true)
  temperature := fun data v =>
    if data = scenarioTempBody then (scenarioTemperature, false) else (v, true)

/-- A temperature body whose `temp0` is `2 ^ 53 + 1`, a number no `float64` denotes. -/
def largeTempBody : List Nat :=
  utf8 "\x7b\"temp0\":9007199254740993,\"temp1\":50,\"unit\":\"°C\"\x7d"

/-- The temperature document of `largeTempBody`. -/
def largeTemperature : temperature :=
  { Timestamp := [], Temp0 := 9007199254740993, Temp1 := 50, Unit := utf8 "°C" }

/-- Decoders that decode the status body of the scenario and `largeTempBody` to their
documents, and leave the destination as it is for any other input. -/
def largeTempDecoders : Decoders where
  status := fun data v => if data = scenarioStatusBody then (scenarioStatus, false) else (v, true)
  temperature := fun data v =>
    if data = largeTempBody then (largeTemperature, false) else (v, true)

/-- A response with status code `code` and a body that reads as `body`. -/
def respond (code : Int) (body : List Nat) : Except FetchError Response :=
  .ok { StatusCode := code, Body := { ReadAll := some body } }

/-- The exporter for a device at `http://localhost:9292` that answers the request for
`/status.json` with `st` and the request for `/temp.json` with `tp`. -/
def device (st tp : Except FetchError Response) : Exporter where
  uri := utf8 "http://localhost:9292"
  fetch := fetchHTTP
    (fun url =>
      if url = utf8 "http://localhost:9292/status.json" then st
      else if url = utf8 "http://localhost:9292/temp.json" then tp
      else .error (.transport "connection refused"))
    (utf8 "http://localhost:9292")

/-! ## Auxiliary definitions for the proofs about `strconv.ParseInt` -/

/-- The digits of `s` in `base` with the underscores left out, wherever they stand. -/
def looseDigits (base : Nat) : GoString → Option (List Nat)
  | [] => some []
  | c :: s =>
    if c = 95 then looseDigits base s
    else IntLiteral.consDigit (IntLiteral.digit base c) (looseDigits base s)

/-- The number the digits `ds` denote in `base` when they follow the number `n`. -/
def numberFrom (base n : Nat) (ds : List Nat) : Nat :=
  ds.foldl (fun n d => n * base + d) n

/-- The results of `ParseUint` that make `ParseInt` fail: a syntax error, or a range error
together with the largest value. -/
def ParseUint.failed (r : Nat × Option NumError) : Prop :=
  r.2 = some .ErrSyntax ∨ (r.2 = some .ErrRange ∧ r.1 = maxUint64)

/-- The part of `ParseUint` that follows the choice of the base, for base argument 0 and bit
size 64: the digit loop over `body` and the check of the underscores of `s0`. -/
def ParseUint.scan (base : Nat) (body s0 : GoString) : Nat × Option NumError :=
  match ParseUintLoop base true (maxUint64 / base + 1) maxUint64 body 0 false with
  | ((n, some err), _) => (n, some err)
  | ((n, none), underscores) =>
    if underscores = true ∧ underscoreOK s0 = false then (0, some .ErrSyntax) else (n, none)

/-- What `ParseUint` has to return for a string whose value as a literal is `o`: the value
when there is one below `2 ^ 64`, an error otherwise. -/
def ParseUint.agrees (o : Option Nat) (r : Nat × Option NumError) : Prop :=
  match o with
  | some v => if v < 2 ^ 64 then r = (v, none) else ParseUint.failed r
  | none => ParseUint.failed r

/-- The part of `ParseInt` that follows the call of `ParseUint`, for bit size 64: `neg` is
whether a `-` was picked off, `r` what `ParseUint` returned. -/
def ParseInt.check (neg : Bool) (r : Nat × Option NumError) : Int × Option NumError :=
  match r with
  | (_, some .ErrSyntax) => (0, some .ErrSyntax)
  | (_, some .ErrBase) => (0, some .ErrBase)
  | (_, some .ErrBitSize) => (0, some .ErrBitSize)
  | (un, _) =>
    if neg = false ∧ un ≥ 2 ^ 63 then (int64 (2 ^ 63 - 1), some .ErrRange)
    else if neg = true ∧ un > 2 ^ 63 then (negInt64 (int64 (2 ^ 63)), some .ErrRange)
    else (if neg then negInt64 (int64 un) else int64 un, none)

/-- The signed 64-bit range. -/
def inInt64 (v : Int) : Prop := -2 ^ 63 ≤ v ∧ v ≤ 2 ^ 63 - 1

instance (v : Int) : Decidable (inInt64 v) := by unfold inInt64; infer_instance

end Bobcat

namespace Bobcat
open IntLiteral

/-! ## `strconv.ParseInt` against the grammar of integer literals -/

theorem or32_lt64 : ∀ r, r < 64 → r ||| 32 = if r < 32 then r + 32 else r := by decide

theorem lower_eq (c : Nat) : lower c = if c % 64 < 32 then c + 32 else c := by
  have hr : c % 64 < 2 ^ 6 := by omega
  have h1 : 2 ^ 6 * (c / 64) + c % 64 = 2 ^ 6 * (c / 64) ||| c % 64 :=
    Nat.mul_add_lt_is_or hr _
  have h32 : (32 : Nat) < 2 ^ 6 := by norm_num
  have h2 : 2 ^ 6 * (c / 64) + (c % 64 ||| 32) = 2 ^ 6 * (c / 64) ||| (c % 64 ||| 32) :=
    Nat.mul_add_lt_is_or (Nat.or_lt_two_pow hr h32) _
  have h3 : c = 2 ^ 6 * (c / 64) + c % 64 := by omega
  have h4 : lower c = 2 ^ 6 * (c / 64) + (c % 64 ||| 32) := by
    rw [h2, ← Nat.lor_assoc, ← h1, ← h3]
    rfl
  rw [h4, or32_lt64 _ (by omega)]
  split <;> omega

theorem digitValue_of_digit {base c d : Nat}
    (h : IntLiteral.digit base c = some d) :
    digitValue c = some d ∧ d < base ∧ c ≠ 95 := by
  unfold IntLiteral.digit at h
  unfold digitValue
  rw [lower_eq]
  split_ifs at h <;> simp at h <;> subst h <;> (split_ifs <;> first | omega | (simp; omega))

theorem digit_of_digitValue {base c d : Nat} (hb : base ≤ 16)
    (h : digitValue c = some d) (hd : d < base) : IntLiteral.digit base c = some d := by
  unfold digitValue at h
  unfold IntLiteral.digit
  rw [lower_eq] at h
  split_ifs at h <;> simp at h <;> subst h <;> split_ifs <;> first | omega | rfl | (simp; omega)

theorem number_eq (base : Nat) (ds : List Nat) : number base ds = numberFrom base 0 ds := rfl

theorem numberFrom_cons (base n d : Nat) (ds : List Nat) :
    numberFrom base n (d :: ds) = numberFrom base (n * base + d) ds := rfl

theorem le_numberFrom (base : Nat) (hb : 1 ≤ base) (ds : List Nat) :
    ∀ n, n ≤ numberFrom base n ds := by
  induction ds with
  | nil => intro n; exact Nat.le_refl n
  | cons d ds ih =>
    intro n
    rw [numberFrom_cons]
    have h1 := ih (n * base + d)
    have h2 : n * 1 ≤ n * base := Nat.mul_le_mul_left n hb
    omega

theorem cutoff_le_iff (base n : Nat) (hb : 1 ≤ base) :
    n ≥ maxUint64 / base + 1 ↔ 2 ^ 64 ≤ n * base := by
  have h : maxUint64 / base < n ↔ maxUint64 < n * base := Nat.div_lt_iff_lt_mul (by omega)
  unfold maxUint64 at *
  omega

theorem consDigit_eq_some {d? : Option Nat} {ds? : Option (List Nat)} {l : List Nat}
    (h : consDigit d? ds? = some l) : ∃ d ds, d? = some d ∧ ds? = some ds ∧ l = d :: ds := by
  cases d? with
  | none => simp [consDigit] at h
  | some d =>
    cases ds? with
    | none => simp [consDigit] at h
    | some ds => exact ⟨d, ds, rfl, rfl, by simpa [consDigit] using h.symm⟩

theorem looseDigits_cons_underscore (base : Nat) (s : GoString) :
    looseDigits base (95 :: s) = looseDigits base s := by
  simp [looseDigits]

theorem looseDigits_cons_of_ne (base c : Nat) (s : GoString) (hc : c ≠ 95) :
    looseDigits base (c :: s) = consDigit (digit base c) (looseDigits base s) := by
  simp [looseDigits, hc]

theorem uint64_of_lt {x : Nat} (h : x < 2 ^ 64) : uint64 x = x := Nat.mod_eq_of_lt h

theorem uint64_of_ge {x : Nat} (h : 2 ^ 64 ≤ x) (h' : x < 2 ^ 64 + 2 ^ 64) :
    uint64 x = x - 2 ^ 64 := by
  unfold uint64
  rw [Nat.mod_eq_sub_mod h]
  exact Nat.mod_eq_of_lt (by omega)

/-- The digit loop on a string of digits and underscores whose number fits in 64 bits. -/
theorem ParseUintLoop_of_looseDigits (base mv : Nat) (hb : 1 ≤ base) (hmv : mv = maxUint64)
    (s : GoString) :
    ∀ (n : Nat) (us : Bool) (ds : List Nat), looseDigits base s = some ds →
      numberFrom base n ds < 2 ^ 64 →
      ParseUintLoop base true (maxUint64 / base + 1) mv s n us =
        ((numberFrom base n ds, none), us || decide (95 ∈ s)) := by
  induction s with
  | nil =>
    intro n us ds h _
    simp [looseDigits] at h
    subst h
    simp [ParseUintLoop, numberFrom]
  | cons c s ih =>
    intro n us ds h hlt
    by_cases hc : c = 95
    · subst hc
      rw [looseDigits_cons_underscore] at h
      simp [ParseUintLoop, ih n true ds h hlt]
    · rw [looseDigits_cons_of_ne _ _ _ hc] at h
      obtain ⟨d, ds', hd, hds, rfl⟩ := consDigit_eq_some h
      obtain ⟨hv, hdb, _⟩ := digitValue_of_digit hd
      rw [numberFrom_cons] at hlt
      have h1 := le_numberFrom base hb ds' (n * base + d)
      have h2 : ¬ (n ≥ maxUint64 / base + 1) := by
        rw [cutoff_le_iff base n hb]; omega
      have h4 : uint64 (n * base) = n * base := uint64_of_lt (by omega)
      have h5 : uint64 (n * base + d) = n * base + d := uint64_of_lt (by omega)
      have h6 : ¬ (n * base + d < n * base ∨ n * base + d > mv) := by
        rw [hmv]; unfold maxUint64; omega
      have h7 : ¬ (d ≥ base) := by omega
      have hc' : (95 = c) = False := by simp; omega
      rw [ParseUintLoop]
      simp only [hc, false_and, if_false, hv, h7, h2, h4, h5, h6]
      rw [ih (n * base + d) us ds' hds hlt, numberFrom_cons]
      simp [hc']

/-- When the digit loop reports no error, the string consists of digits and underscores and
its number fits in 64 bits. -/
theorem looseDigits_of_ParseUintLoop (base mv : Nat) (hb : 1 ≤ base) (hb' : base ≤ 16)
    (s : GoString) :
    ∀ (n : Nat) (us : Bool), n < 2 ^ 64 →
      (ParseUintLoop base true (maxUint64 / base + 1) mv s n us).1.2 = none →
      ∃ ds, looseDigits base s = some ds ∧ numberFrom base n ds < 2 ^ 64 := by
  induction s with
  | nil =>
    intro n us hn _
    exact ⟨[], rfl, hn⟩
  | cons c s ih =>
    intro n us hn h
    by_cases hc : c = 95
    · subst hc
      rw [looseDigits_cons_underscore]
      simp only [ParseUintLoop, and_self, if_true] at h
      exact ih n true hn h
    · rw [ParseUintLoop] at h
      simp only [hc, false_and, if_false] at h
      cases hv : digitValue c with
      | none => simp [hv] at h
      | some d =>
        simp only [hv] at h
        by_cases h7 : d ≥ base
        · simp [h7] at h
        · simp only [h7, if_false] at h
          by_cases h2 : n ≥ maxUint64 / base + 1
          · simp [h2] at h
          · simp only [h2, if_false] at h
            have h3 : n * base < 2 ^ 64 := by
              rw [cutoff_le_iff base n hb] at h2; omega
            rw [uint64_of_lt h3] at h
            by_cases h6 : uint64 (n * base + d) < n * base ∨ uint64 (n * base + d) > mv
            · simp [h6] at h
            · simp only [h6, if_false] at h
              have h8 : n * base + d < 2 ^ 64 := by
                by_contra hge
                have := uint64_of_ge (x := n * base + d) (by omega) (by omega)
                omega
              rw [uint64_of_lt h8] at h
              obtain ⟨ds, hds, hlt⟩ := ih (n * base + d) us h8 h
              refine ⟨d :: ds, ?_, ?_⟩
              · rw [looseDigits_cons_of_ne _ _ _ hc,
                  digit_of_digitValue hb' hv (by omega), hds]
                rfl
              · rw [numberFrom_cons]; exact hlt

/-- An error of the digit loop is a syntax error, or a range error with the largest value. -/
theorem ParseUintLoop_failed (base mv : Nat) (hmv : mv = maxUint64) (s : GoString) :
    ∀ (n : Nat) (us : Bool),
      (ParseUintLoop base true (maxUint64 / base + 1) mv s n us).1.2 = none ∨
      ParseUint.failed (ParseUintLoop base true (maxUint64 / base + 1) mv s n us).1 := by
  induction s with
  | nil => intro n us; left; rfl
  | cons c s ih =>
    intro n us
    rw [ParseUintLoop]
    by_cases hc : c = 95 ∧ true = true
    · rw [if_pos hc]; exact ih n true
    · rw [if_neg hc]
      cases hv : digitValue c with
      | none => right; left; rfl
      | some d =>
        dsimp only
        split_ifs
        · right; left; rfl
        · right; right; exact ⟨rfl, hmv⟩
        · right; right; exact ⟨rfl, hmv⟩
        · exact ih _ us

/-! ### The underscores -/

theorem digit_underscore (base : Nat) : digit base 95 = none := by
  unfold IntLiteral.digit
  split_ifs <;> first | omega | rfl

theorem consDigit_none (ds? : Option (List Nat)) : consDigit none ds? = none := by
  cases ds? <;> rfl

theorem moreDigits_cons_underscore (base : Nat) (s : GoString) :
    moreDigits base (95 :: s) = digits base s := by
  cases s <;> simp [moreDigits, digits]

theorem moreDigits_cons_of_ne (base c : Nat) (s : GoString) (hc : c ≠ 95) :
    moreDigits base (c :: s) = consDigit (digit base c) (moreDigits base s) := by
  cases s <;> simp [moreDigits, hc]

theorem digits_cons (base c : Nat) (s : GoString) :
    digits base (c :: s) = consDigit (digit base c) (moreDigits base s) := rfl

theorem afterPrefix_eq_moreDigits (base : Nat) (s : GoString) (hs : s ≠ []) :
    afterPrefix base s = moreDigits base s := by
  cases s with
  | nil => exact absurd rfl hs
  | cons c s =>
    by_cases hc : c = 95
    · subst hc; simp [afterPrefix, moreDigits_cons_underscore]
    · simp [afterPrefix, hc, moreDigits_cons_of_ne _ _ _ hc, digits_cons]

/-- The grammar accepts only strings of digits and underscores, and reads the same digits. -/
theorem looseDigits_of_grammar (base : Nat) (s : GoString) :
    (∀ ds, moreDigits base s = some ds → looseDigits base s = some ds) ∧
      (∀ ds, digits base s = some ds → looseDigits base s = some ds) := by
  induction s with
  | nil => exact ⟨fun ds h => by simpa [moreDigits, looseDigits] using h,
      fun ds h => by simp [digits] at h⟩
  | cons c s ih =>
    have hd : ∀ ds, digits base (c :: s) = some ds → looseDigits base (c :: s) = some ds := by
      intro ds h
      rw [digits_cons] at h
      obtain ⟨d, ds', hd, hds, rfl⟩ := consDigit_eq_some h
      have hc : c ≠ 95 := (digitValue_of_digit hd).2.2
      rw [looseDigits_cons_of_ne _ _ _ hc, hd, ih.1 ds' hds]
      rfl
    refine ⟨?_, hd⟩
    intro ds h
    by_cases hc : c = 95
    · subst hc
      rw [moreDigits_cons_underscore] at h
      rw [looseDigits_cons_underscore]
      exact ih.2 ds h
    · rw [moreDigits_cons_of_ne _ _ _ hc, ← digits_cons] at h
      exact hd ds h

/-- Without underscores, a string of digits is what the grammar accepts. -/
theorem moreDigits_of_looseDigits (base : Nat) (s : GoString) :
    ∀ ds, looseDigits base s = some ds → 95 ∉ s → moreDigits base s = some ds := by
  induction s with
  | nil => intro ds h _; simpa [moreDigits, looseDigits] using h
  | cons c s ih =>
    intro ds h hn
    have hc : c ≠ 95 := fun hc => hn (by simp [hc])
    have hn' : 95 ∉ s := fun hm => hn (by simp [hm])
    rw [looseDigits_cons_of_ne _ _ _ hc] at h
    obtain ⟨d, ds', hd, hds, rfl⟩ := consDigit_eq_some h
    rw [moreDigits_cons_of_ne _ _ _ hc, hd, ih ds' hds hn']
    rfl

theorem digits_of_looseDigits (base : Nat) (s : GoString) (hs : s ≠ []) (ds : List Nat)
    (h : looseDigits base s = some ds) (hn : 95 ∉ s) : digits base s = some ds := by
  cases s with
  | nil => exact absurd rfl hs
  | cons c s =>
    have hc : c ≠ 95 := fun hc => hn (by simp [hc])
    rw [digits_cons, ← moreDigits_cons_of_ne _ _ _ hc]
    exact moreDigits_of_looseDigits base _ ds h hn

/-- A digit of the base passes the digit test of `underscoreOK`. -/
theorem digit_test {base c d : Nat} {hex : Bool} (hh : base ≤ 10 ∨ hex = true)
    (h : digit base c = some d) :
    (48 ≤ c ∧ c ≤ 57) ∨ (hex = true ∧ 97 ≤ lower c ∧ lower c ≤ 102) := by
  unfold IntLiteral.digit at h
  rw [lower_eq]
  rcases hh with hb | rfl
  · split_ifs at h <;> simp at h <;> subst h <;> split_ifs <;> omega
  · split_ifs at h <;> simp at h <;> subst h <;> split_ifs <;> simp <;> omega

theorem underscore_test (hex : Bool) :
    ¬ ((48 ≤ 95 ∧ 95 ≤ 57) ∨ (hex = true ∧ 97 ≤ lower 95 ∧ lower 95 ≤ 102)) := by
  rw [lower_eq]
  simp

/-- On a string of digits and underscores, the loop of `underscoreOK` accepts what the
grammar accepts: after a digit `{ [ "_" ] digit }`, after an underscore or at the beginning
`digit { [ "_" ] digit }`. -/
theorem underscoreOKLoop_iff (base : Nat) (hex : Bool) (hh : base ≤ 10 ∨ hex = true)
    (s : GoString) :
    ∀ ds, looseDigits base s = some ds →
      (underscoreOKLoop hex s 48 = true ↔ moreDigits base s = some ds) ∧
      (underscoreOKLoop hex s 95 = true ↔ digits base s = some ds) ∧
      (underscoreOKLoop hex s 94 = true ↔ (s = [] ∨ digits base s = some ds)) := by
  induction s with
  | nil =>
    intro ds h
    simp [looseDigits] at h
    subst h
    simp [underscoreOKLoop, moreDigits, digits]
  | cons c s ih =>
    intro ds h
    by_cases hc : c = 95
    · subst hc
      rw [looseDigits_cons_underscore] at h
      have ht := underscore_test hex
      rw [moreDigits_cons_underscore, digits_cons, digit_underscore, consDigit_none]
      simp only [underscoreOKLoop, ht, if_false]
      simp [(ih ds h).2.1]
    · rw [looseDigits_cons_of_ne _ _ _ hc] at h
      obtain ⟨d, ds', hd, hds, rfl⟩ := consDigit_eq_some h
      have ht := digit_test hh hd
      rw [moreDigits_cons_of_ne _ _ _ hc, digits_cons, hd]
      simp only [underscoreOKLoop, ht, if_true]
      have h1 := (ih ds' hds).1
      have h2 : consDigit (some d) (moreDigits base s) = some (d :: ds') ↔
          moreDigits base s = some ds' := by
        cases moreDigits base s <;> simp [consDigit]
      simp [h1, h2]

/-! ### `ParseUint` against the grammar -/

theorem failed_error_ne_none {r : Nat × Option NumError} (h : ParseUint.failed r) :
    r.2 ≠ none := by
  rcases h with h | ⟨h, _⟩ <;> rw [h] <;> simp

/-- The digit loop and the underscore check together accept what the grammar `G` accepts,
whenever `G` and `underscoreOK` agree on strings of digits and underscores. -/
theorem scan_agrees (base : Nat) (hb : 1 ≤ base) (hb' : base ≤ 16) (body s0 : GoString)
    (G : Option (List Nat))
    (hG1 : ∀ ds, G = some ds → looseDigits base body = some ds)
    (hG2 : ∀ ds, looseDigits base body = some ds → 95 ∉ body → G = some ds)
    (hG3 : ∀ ds, looseDigits base body = some ds → 95 ∈ body →
      (underscoreOK s0 = true ↔ G = some ds)) :
    ParseUint.agrees (G.map (number base)) (ParseUint.scan base body s0) := by
  rcases ParseUintLoop_failed base maxUint64 rfl body 0 false with hnone | hfail
  · obtain ⟨ds, hds, hlt⟩ :=
      looseDigits_of_ParseUintLoop base maxUint64 hb hb' body 0 false (by norm_num) hnone
    have hloop := ParseUintLoop_of_looseDigits base maxUint64 hb rfl body 0 false ds hds hlt
    unfold ParseUint.scan
    rw [hloop]
    by_cases hu : 95 ∈ body
    · by_cases hok : underscoreOK s0 = true
      · have hG := (hG3 ds hds hu).mp hok
        subst hG
        have hlt' : numberFrom base 0 ds < 18446744073709551616 := hlt
        simp [ParseUint.agrees, number_eq, hlt', hok]
      · have hG : G = none := by
          cases hg : G with
          | none => rfl
          | some ds' =>
            have h1 := hG1 ds' hg
            rw [hds] at h1
            cases h1
            exact absurd ((hG3 ds hds hu).mpr hg) hok
        subst hG
        simp only [Bool.not_eq_true] at hok
        simp [ParseUint.agrees, ParseUint.failed, hu, hok]
    · have hG := hG2 ds hds hu
      subst hG
      have hlt' : numberFrom base 0 ds < 18446744073709551616 := hlt
      simp [ParseUint.agrees, number_eq, hlt', hu]
  · have hne := failed_error_ne_none hfail
    have hscan : ParseUint.scan base body s0 =
        (ParseUintLoop base true (maxUint64 / base + 1) maxUint64 body 0 false).1 := by
      unfold ParseUint.scan
      rcases hl : ParseUintLoop base true (maxUint64 / base + 1) maxUint64 body 0 false with
        ⟨⟨n, err⟩, us⟩
      rw [hl] at hne
      cases err with
      | none => exact absurd rfl hne
      | some e => rfl
    rw [hscan]
    cases hg : G with
    | none => exact hfail
    | some ds =>
      have hds := hG1 ds hg
      by_cases hlt : number base ds < 2 ^ 64
      · have hloop := ParseUintLoop_of_looseDigits base maxUint64 hb rfl body 0 false ds hds hlt
        rw [hloop] at hne
        exact absurd rfl hne
      · have hlt' : ¬ number base ds < 18446744073709551616 := hlt
        simp [ParseUint.agrees, hlt', hfail]

theorem ParseUint_decimal (c : Nat) (s : GoString) (hc : c ≠ 48) :
    ParseUint (c :: s) 0 64 = ParseUint.scan 10 (c :: s) (c :: s) := by
  simp [ParseUint, ParseUint.scan, maxUint64, IntSize, hc]

theorem ParseUint_zero : ParseUint [48] 0 64 = (0, none) := by decide

theorem lower_eq_b (p : Nat) : lower p = 98 ↔ (p = 98 ∨ p = 66) := by
  rw [lower_eq]; split <;> omega

theorem lower_eq_o (p : Nat) : lower p = 111 ↔ (p = 111 ∨ p = 79) := by
  rw [lower_eq]; split <;> omega

theorem lower_eq_x (p : Nat) : lower p = 120 ↔ (p = 120 ∨ p = 88) := by
  rw [lower_eq]; split <;> omega

theorem ParseUint_binary (p q : Nat) (s : GoString) (hp : lower p = 98) :
    ParseUint (48 :: p :: q :: s) 0 64 = ParseUint.scan 2 (q :: s) (48 :: p :: q :: s) := by
  simp [ParseUint, ParseUint.scan, maxUint64, IntSize, hp]

theorem ParseUint_octal (p q : Nat) (s : GoString) (hp : lower p = 111) :
    ParseUint (48 :: p :: q :: s) 0 64 = ParseUint.scan 8 (q :: s) (48 :: p :: q :: s) := by
  simp [ParseUint, ParseUint.scan, maxUint64, IntSize, hp]

theorem ParseUint_hex (p q : Nat) (s : GoString) (hp : lower p = 120) :
    ParseUint (48 :: p :: q :: s) 0 64 = ParseUint.scan 16 (q :: s) (48 :: p :: q :: s) := by
  simp [ParseUint, ParseUint.scan, maxUint64, IntSize, hp]

theorem ParseUint_leading_zero (p : Nat) (s : GoString)
    (hp : s = [] ∨ (lower p ≠ 98 ∧ lower p ≠ 111 ∧ lower p ≠ 120)) :
    ParseUint (48 :: p :: s) 0 64 = ParseUint.scan 8 (p :: s) (48 :: p :: s) := by
  rcases hp with rfl | ⟨h1, h2, h3⟩
  · simp [ParseUint, ParseUint.scan, maxUint64, IntSize]
  · simp [ParseUint, ParseUint.scan, maxUint64, IntSize, h1, h2, h3]

theorem underscoreOK_prefixed (p : Nat) (s : GoString)
    (hp : lower p = 98 ∨ lower p = 111 ∨ lower p = 120) :
    underscoreOK (48 :: p :: s) = underscoreOKLoop (lower p = 120) s 48 := by
  simp [underscoreOK, hp]

theorem underscoreOK_leading_zero (p : Nat) (s : GoString)
    (hp : lower p ≠ 98 ∧ lower p ≠ 111 ∧ lower p ≠ 120) :
    underscoreOK (48 :: p :: s) = underscoreOKLoop false (p :: s) 48 := by
  simp [underscoreOK, hp, underscoreOKLoop]

theorem underscoreOK_decimal (c : Nat) (s : GoString) (h1 : c ≠ 48) (h2 : c ≠ 43)
    (h3 : c ≠ 45) : underscoreOK (c :: s) = underscoreOKLoop false (c :: s) 94 := by
  simp [underscoreOK, h1, h2, h3]

/-- After a base prefix, or after the leading `0` of an octal literal: the scan accepts
what `[ "_" ] digits` accepts. -/
theorem scan_agrees_afterPrefix (base : Nat) (hex : Bool) (hb : 1 ≤ base) (hb' : base ≤ 16)
    (hh : base ≤ 10 ∨ hex = true) (body s0 : GoString) (hbody : body ≠ [])
    (hus : underscoreOK s0 = underscoreOKLoop hex body 48) :
    ParseUint.agrees ((afterPrefix base body).map (number base))
      (ParseUint.scan base body s0) := by
  rw [afterPrefix_eq_moreDigits base body hbody]
  apply scan_agrees base hb hb' body s0
  · exact (looseDigits_of_grammar base body).1
  · exact moreDigits_of_looseDigits base body
  · intro ds hds _
    rw [hus]
    exact (underscoreOKLoop_iff base hex hh body ds hds).1

theorem looseDigits_head {base c : Nat} {s : GoString} {ds : List Nat}
    (h : looseDigits base (c :: s) = some ds) : c = 95 ∨ ∃ d, digit base c = some d := by
  by_cases hc : c = 95
  · exact Or.inl hc
  · rw [looseDigits_cons_of_ne _ _ _ hc] at h
    obtain ⟨d, _, hd, _, _⟩ := consDigit_eq_some h
    exact Or.inr ⟨d, hd⟩

theorem digit_range {base c d : Nat} (h : digit base c = some d) :
    (48 ≤ c ∧ c ≤ 57) ∨ (97 ≤ c ∧ c ≤ 102) ∨ (65 ≤ c ∧ c ≤ 70) := by
  unfold IntLiteral.digit at h
  split_ifs at h <;> omega

/-- A string that begins with a base letter is not a string of octal digits. -/
theorem looseDigits_octal_letter (p : Nat) (s : GoString)
    (hp : lower p = 98 ∨ lower p = 111 ∨ lower p = 120) : looseDigits 8 (p :: s) = none := by
  rw [lower_eq_b, lower_eq_o, lower_eq_x] at hp
  have hc : p ≠ 95 := by omega
  have hd : digit 8 p = none := by
    unfold IntLiteral.digit
    split_ifs <;> first | omega | rfl
  rw [looseDigits_cons_of_ne _ _ _ hc, hd, consDigit_none]

/-- `ParseUint(s, 0, 64)` returns the value of `s` as an unsigned integer literal when `s` is
one and the value is below `2 ^ 64`, and fails otherwise. -/
theorem ParseUint_agrees (s : GoString) :
    ParseUint.agrees (IntLiteral.unsigned s) (ParseUint s 0 64) := by
  cases s with
  | nil => left; rfl
  | cons c s =>
    by_cases hc : c = 48
    · subst hc
      cases s with
      | nil => rw [ParseUint_zero]; simp [IntLiteral.unsigned, ParseUint.agrees]
      | cons p s =>
        by_cases hp : lower p = 98 ∨ lower p = 111 ∨ lower p = 120
        · cases s with
          | nil =>
            -- too short for a prefix: read as octal, and the letter is no octal digit
            rw [ParseUint_leading_zero p [] (Or.inl rfl)]
            have hl := looseDigits_octal_letter p [] hp
            have hspec : IntLiteral.unsigned [48, p] = (none : Option (List Nat)).map (number 8) := by
              rw [lower_eq_b, lower_eq_o, lower_eq_x] at hp
              simp only [IntLiteral.unsigned, if_true, Option.map_none']
              split_ifs <;> first | rfl | omega
            rw [hspec]
            apply scan_agrees 8 (by norm_num) (by norm_num)
            · intro ds h; cases h
            · intro ds h; rw [hl] at h; cases h
            · intro ds h; rw [hl] at h; cases h
          | cons q s =>
            have hus := underscoreOK_prefixed p (q :: s) hp
            rcases hp with hp | hp | hp
            · rw [ParseUint_binary p q s hp]
              have hspec : IntLiteral.unsigned (48 :: p :: q :: s) =
                  (afterPrefix 2 (q :: s)).map (number 2) := by
                simp [IntLiteral.unsigned, (lower_eq_b p).mp hp]
              rw [hspec]
              have hx : (decide (lower p = 120)) = false := by simp [hp]
              rw [hx] at hus
              exact scan_agrees_afterPrefix 2 false (by norm_num) (by norm_num)
                (Or.inl (by norm_num)) _ _ (by simp) hus
            · rw [ParseUint_octal p q s hp]
              have hspec : IntLiteral.unsigned (48 :: p :: q :: s) =
                  (afterPrefix 8 (q :: s)).map (number 8) := by
                have h1 := (lower_eq_o p).mp hp
                have h2 : ¬ (p = 98 ∨ p = 66) := by omega
                simp [IntLiteral.unsigned, h1, h2]
              rw [hspec]
              have hx : (decide (lower p = 120)) = false := by simp [hp]
              rw [hx] at hus
              exact scan_agrees_afterPrefix 8 false (by norm_num) (by norm_num)
                (Or.inl (by norm_num)) _ _ (by simp) hus
            · rw [ParseUint_hex p q s hp]
              have hspec : IntLiteral.unsigned (48 :: p :: q :: s) =
                  (afterPrefix 16 (q :: s)).map (number 16) := by
                have h1 := (lower_eq_x p).mp hp
                have h2 : ¬ (p = 98 ∨ p = 66) := by omega
                have h3 : ¬ (p = 111 ∨ p = 79) := by omega
                simp [IntLiteral.unsigned, h1, h2, h3]
              rw [hspec]
              have hx : (decide (lower p = 120)) = true := by simp [hp]
              rw [hx] at hus
              exact scan_agrees_afterPrefix 16 true (by norm_num) (by norm_num)
                (Or.inr rfl) _ _ (by simp) hus
        · have hp' : lower p ≠ 98 ∧ lower p ≠ 111 ∧ lower p ≠ 120 := by
            refine ⟨fun h => hp (Or.inl h), fun h => hp (Or.inr (Or.inl h)),
              fun h => hp (Or.inr (Or.inr h))⟩
          rw [ParseUint_leading_zero p s (Or.inr hp')]
          have hspec : IntLiteral.unsigned (48 :: p :: s) =
              (afterPrefix 8 (p :: s)).map (number 8) := by
            have h1 : ¬ (p = 98 ∨ p = 66) := fun h => hp'.1 ((lower_eq_b p).mpr h)
            have h2 : ¬ (p = 111 ∨ p = 79) := fun h => hp'.2.1 ((lower_eq_o p).mpr h)
            have h3 : ¬ (p = 120 ∨ p = 88) := fun h => hp'.2.2 ((lower_eq_x p).mpr h)
            simp [IntLiteral.unsigned, h1, h2, h3]
          rw [hspec]
          exact scan_agrees_afterPrefix 8 false (by norm_num) (by norm_num)
            (Or.inl (by norm_num)) _ _ (by simp) (underscoreOK_leading_zero p s hp')
    · rw [ParseUint_decimal c s hc]
      have hspec : IntLiteral.unsigned (c :: s) = (digits 10 (c :: s)).map (number 10) := by
        simp [IntLiteral.unsigned, hc]
      rw [hspec]
      apply scan_agrees 10 (by norm_num) (by norm_num)
      · exact (looseDigits_of_grammar 10 (c :: s)).2
      · intro ds hds hn
        exact digits_of_looseDigits 10 (c :: s) (by simp) ds hds hn
      · intro ds hds _
        have hsign : c ≠ 43 ∧ c ≠ 45 := by
          rcases looseDigits_head hds with h | ⟨d, hd⟩
          · omega
          · have := digit_range hd; omega
        rw [underscoreOK_decimal c s hc hsign.1 hsign.2]
        have h := (underscoreOKLoop_iff 10 false (Or.inl (by norm_num)) (c :: s) ds hds).2.2
        simpa using h

/-! ### `ParseInt` against the grammar -/

theorem ParseInt_plus (s : GoString) :
    ParseInt (43 :: s) 0 64 = ParseInt.check false (ParseUint s 0 64) := by
  simp only [ParseInt, IntSize, List.getElem?_cons_zero, List.drop_succ_cons, List.drop_zero,
    reduceCtorEq, Option.some.injEq, Nat.reduceEqDiff, or_true, true_or,
    or_false, if_true, if_false]
  generalize ParseUint s 0 64 = r
  rcases r with ⟨un, _ | e⟩
  · simp [ParseInt.check]
  · cases e <;> simp [ParseInt.check]

theorem ParseInt_minus (s : GoString) :
    ParseInt (45 :: s) 0 64 = ParseInt.check true (ParseUint s 0 64) := by
  simp only [ParseInt, IntSize, List.getElem?_cons_zero, List.drop_succ_cons, List.drop_zero,
    reduceCtorEq, Option.some.injEq, Nat.reduceEqDiff, or_true, true_or,
    or_false, if_true, if_false]
  generalize ParseUint s 0 64 = r
  rcases r with ⟨un, _ | e⟩
  · simp [ParseInt.check]
  · cases e <;> simp [ParseInt.check]

theorem ParseInt_unsigned (c : Nat) (s : GoString) (h1 : c ≠ 43) (h2 : c ≠ 45) :
    ParseInt (c :: s) 0 64 = ParseInt.check false (ParseUint (c :: s) 0 64) := by
  simp only [ParseInt, IntSize, List.getElem?_cons_zero, Option.some.injEq, h1, h2, or_self,
    reduceCtorEq, if_false]
  generalize ParseUint (c :: s) 0 64 = r
  rcases r with ⟨un, _ | e⟩
  · simp [ParseInt.check]
  · cases e <;> simp [ParseInt.check]

theorem int64_of_lt {v : Nat} (h : v < 2 ^ 63) : int64 v = v := by
  unfold int64
  have h1 : v % 2 ^ 64 = v := Nat.mod_eq_of_lt (by omega)
  rw [h1, if_pos h]

theorem negInt64_int64 {v : Nat} (h : v ≤ 2 ^ 63) : negInt64 (int64 v) = -(v : Int) := by
  have h1 : v % 2 ^ 64 = v := Nat.mod_eq_of_lt (by omega)
  unfold negInt64 int64
  rw [h1]
  split_ifs <;> omega

theorem check_failed (neg : Bool) {r : Nat × Option NumError} (h : ParseUint.failed r) :
    (ParseInt.check neg r).2 ≠ none := by
  obtain ⟨un, err⟩ := r
  rcases h with h | ⟨h, hv⟩
  · simp only at h; subst h; simp [ParseInt.check]
  · simp only at h hv
    subst h hv
    cases neg <;> simp [ParseInt.check, maxUint64]

theorem check_value (neg : Bool) (v : Nat) :
    ParseInt.check neg (v, none) =
      if inInt64 (if neg then -(v : Int) else v) then ((if neg then -(v : Int) else v), none)
      else ((if neg then -2 ^ 63 else 2 ^ 63 - 1), some .ErrRange) := by
  cases neg
  · by_cases h : v < 9223372036854775808
    · have h1 : ¬ (9223372036854775808 ≤ v) := by omega
      have h2 : inInt64 (v : Int) := by unfold inInt64; omega
      have h3 : int64 v = v := int64_of_lt (by omega)
      simp [ParseInt.check, h1, h2, h3]
    · have h1 : 9223372036854775808 ≤ v := by omega
      have h2 : ¬ inInt64 (v : Int) := by unfold inInt64; omega
      have h3 : int64 9223372036854775807 = 9223372036854775807 := by decide
      simp [ParseInt.check, h1, h2, h3]
  · by_cases h : v ≤ 9223372036854775808
    · have h1 : ¬ (9223372036854775808 < v) := by omega
      have h2 : inInt64 (-(v : Int)) := by unfold inInt64; omega
      have h3 : negInt64 (int64 v) = -(v : Int) := negInt64_int64 (by omega)
      simp [ParseInt.check, h1, h2, h3]
    · have h1 : 9223372036854775808 < v := by omega
      have h2 : ¬ inInt64 (-(v : Int)) := by unfold inInt64; omega
      have h3 : negInt64 (int64 9223372036854775808) = -9223372036854775808 := by decide
      simp [ParseInt.check, h1, h2, h3]

/-- The value the sign gives to the magnitude `n`. -/
theorem check_agrees (neg : Bool) (o : Option Nat) (r : Nat × Option NumError)
    (h : ParseUint.agrees o r) :
    match o.map (fun n : Nat => if neg then -(n : Int) else (n : Int)) with
    | some v => if inInt64 v then ParseInt.check neg r = (v, none)
        else (ParseInt.check neg r).2 ≠ none
    | none => (ParseInt.check neg r).2 ≠ none := by
  cases o with
  | none => exact check_failed neg h
  | some n =>
    simp only [Option.map_some']
    by_cases hn : n < 2 ^ 64
    · simp only [ParseUint.agrees, hn, if_true] at h
      subst h
      rw [check_value]
      split_ifs <;> simp
    · simp only [ParseUint.agrees, hn, if_false] at h
      have h2 : ¬ inInt64 (if neg then -(n : Int) else (n : Int)) := by
        unfold inInt64; cases neg <;> simp <;> omega
      rw [if_neg h2]
      exact check_failed neg h

/-- `ParseInt(s, 0, 64)` returns the value of `s` as an integer literal when `s` is one and
the value is in the signed 64-bit range, and an error otherwise. -/
theorem ParseInt_agrees (s : GoString) :
    match IntLiteral.value s with
    | some v => if inInt64 v then ParseInt s 0 64 = (v, none) else (ParseInt s 0 64).2 ≠ none
    | none => (ParseInt s 0 64).2 ≠ none := by
  cases s with
  | nil => simp [IntLiteral.value, ParseInt]
  | cons c s =>
    by_cases h1 : c = 43
    · subst h1
      rw [ParseInt_plus]
      have h := check_agrees false _ _ (ParseUint_agrees s)
      have hval : IntLiteral.value (43 :: s) = (IntLiteral.unsigned s).map
          (fun n : Nat => if false = true then -(n : Int) else (n : Int)) := by
        simp only [IntLiteral.value, if_true]
        cases IntLiteral.unsigned s <;> rfl
      rw [hval]
      exact h
    · by_cases h2 : c = 45
      · subst h2
        rw [ParseInt_minus]
        have h := check_agrees true _ _ (ParseUint_agrees s)
        have hval : IntLiteral.value (45 :: s) = (IntLiteral.unsigned s).map
            (fun n : Nat => if true = true then -(n : Int) else (n : Int)) := by
          simp only [IntLiteral.value, h1, if_true, if_false]
          cases IntLiteral.unsigned s <;> rfl
        rw [hval]
        exact h
      · rw [ParseInt_unsigned c s h1 h2]
        have h := check_agrees false _ _ (ParseUint_agrees (c :: s))
        have hval : IntLiteral.value (c :: s) = (IntLiteral.unsigned (c :: s)).map
            (fun n : Nat => if false = true then -(n : Int) else (n : Int)) := by
          simp only [IntLiteral.value, h1, h2, if_false]
          cases IntLiteral.unsigned (c :: s) <;> rfl
        rw [hval]
        exact h

theorem parseString_of_error {s : GoString} (h : (ParseInt s 0 64).2 ≠ none) :
    parseString s = 0 := by
  unfold parseString
  rcases hr : ParseInt s 0 64 with ⟨v, _ | e⟩
  · rw [hr] at h; exact absurd rfl h
  · rfl

theorem parseString_eq (s : GoString) :
    parseString s =
      match IntLiteral.value s with
      | some v => if inInt64 v then float64.ofInt v else 0
      | none => 0 := by
  have h := ParseInt_agrees s
  cases hv : IntLiteral.value s with
  | none =>
    rw [hv] at h
    exact parseString_of_error h
  | some v =>
    rw [hv] at h
    simp only at h ⊢
    split_ifs at h ⊢ with hr
    · unfold parseString; rw [h]
    · exact parseString_of_error h

theorem excessBitsAux_of_lt (fuel m : Nat) (h : m < 2 ^ 53) :
    float64.excessBitsAux fuel m = 0 := by
  cases fuel with
  | zero => rfl
  | succ fuel =>
    have h' : m < 9007199254740992 := h
    simp [float64.excessBitsAux, h']

theorem roundNat_of_le (n : Nat) (h : n ≤ 2 ^ 53) : float64.roundNat n = n := by
  by_cases hn : n < 2 ^ 53
  · simp [float64.roundNat, float64.excessBits, excessBitsAux_of_lt n n hn, Nat.mod_one]
  · have : n = 2 ^ 53 := by omega
    subst this
    decide

theorem excessBitsAux_enough (fuel : Nat) :
    ∀ m, m < 2 ^ 53 * 2 ^ fuel → m / 2 ^ float64.excessBitsAux fuel m < 2 ^ 53 := by
  induction fuel with
  | zero =>
    intro m h
    simpa [float64.excessBitsAux] using h
  | succ fuel ih =>
    intro m h
    unfold float64.excessBitsAux
    split_ifs with hm
    · simpa using hm
    · have h2 : m / 2 < 2 ^ 53 * 2 ^ fuel := by
        rw [pow_succ] at h
        omega
      have h3 := ih (m / 2) h2
      rw [pow_succ, Nat.mul_comm, ← Nat.div_div_eq_div_mul]
      exact h3

/-- The fuel of `float64.excessBits` is enough: what is left of `n` fits in the 53 bits of
the significand. -/
theorem float64.excessBits_enough (n : Nat) : n / 2 ^ float64.excessBits n < 2 ^ 53 := by
  apply excessBitsAux_enough
  have h1 : n < 2 ^ n := Nat.lt_two_pow n
  have h2 : 2 ^ n * 1 ≤ 2 ^ n * 2 ^ 53 := Nat.mul_le_mul_left _ (by norm_num)
  rw [Nat.mul_comm (2 ^ 53)]
  omega

/-- The rounding to 53 bits gives a number with a significand of at most 53 bits (or the
next power of two), at most half a unit in the last place away from `n`. -/
theorem float64.roundNat_nearest (n : Nat) :
    ∃ q, float64.roundNat n = q * 2 ^ float64.excessBits n ∧ q ≤ 2 ^ 53 ∧
      2 * float64.roundNat n ≤ 2 * n + 2 ^ float64.excessBits n ∧
      2 * n ≤ 2 * float64.roundNat n + 2 ^ float64.excessBits n := by
  have hq := float64.excessBits_enough n
  have hn := Nat.div_add_mod n (2 ^ float64.excessBits n)
  have hr := Nat.mod_lt n (Nat.two_pow_pos (float64.excessBits n))
  rw [Nat.mul_comm] at hn
  unfold float64.roundNat
  simp only
  split_ifs with h
  · refine ⟨n / 2 ^ float64.excessBits n + 1, rfl, by omega, ?_, ?_⟩
    · rw [Nat.add_mul]; omega
    · rw [Nat.add_mul]; omega
  · refine ⟨n / 2 ^ float64.excessBits n, rfl, by omega, ?_, ?_⟩ <;> omega

/-- The conversion to `float64` is exact up to `2 ^ 53` in magnitude. -/
theorem float64.ofInt_exact (v : Int) (h : v.natAbs ≤ 2 ^ 53) : float64.ofInt v = ⟨v⟩ := by
  unfold float64.ofInt
  rw [roundNat_of_le _ h]
  congr 1
  split_ifs <;> omega

/-! ## C1: the numeric coercion -/

/-- C1, as the specification states it, fails: `9223372036854775808` is a valid decimal
integer literal, of value `2 ^ 63`, and `parseString` returns 0 for it, not its value. -/
theorem parseString_literal_out_of_range :
    IntLiteral.value (utf8 "9223372036854775808") = some (2 ^ 63) ∧
      parseString (utf8 "9223372036854775808") = 0 ∧
      parseString (utf8 "9223372036854775808") ≠ float64.ofInt (2 ^ 63) := by
  decide

/-- C1, amended: for every string `s`, when `s` is a valid integer literal (an optional sign,
then a decimal literal or digits after one of the prefixes `0b`, `0o`, `0x` or a leading
`0`, with single underscores allowed between digits and after the prefix) whose value lies
in the signed 64-bit range, `parseString(s)` is that value converted to `float64`, which is
the value itself up to `2 ^ 53` in magnitude; for every other string, among them the empty
string and the literals of a value outside the signed 64-bit range, it is 0. -/
theorem parseString_literal (s : GoString) :
    parseString s =
        (match IntLiteral.value s with
        | some v => if -2 ^ 63 ≤ v ∧ v ≤ 2 ^ 63 - 1 then float64.ofInt v else 0
        | none => 0) ∧
      (∀ v : Int, v.natAbs ≤ 2 ^ 53 → float64.ofInt v = ⟨v⟩) ∧
      parseString [] = 0 ∧ IntLiteral.value [] = none ∧
      parseString (utf8 "0x1F") = 31 ∧ IntLiteral.value (utf8 "0x1F") = some 31 := by
  refine ⟨parseString_eq s, float64.ofInt_exact, by decide, by decide, by decide, by decide⟩

/-! ## The scrape, case by case -/

theorem sent_append (σ σ' : State) (ms : List Metric) (h : σ'.ch = σ.ch ++ ms) :
    sent σ σ' = ms := by
  simp [sent, h]

theorem requested_append (σ σ' : State) (rs : List GoString)
    (h : σ'.requests = σ.requests ++ rs) : requested σ σ' = rs := by
  simp [requested, h]

/-- When the status fetch fails, `scrape` counts the scrape, asks for `/status.json` only,
sends nothing and returns 0. -/
theorem scrape_status_failed (e : Exporter) (dec : Decoders) (σ : State)
    (hs : e.fetched "/status.json" = none) :
    e.scrape dec σ =
      (0, { totalScrapes := σ.totalScrapes + 1, ch := σ.ch,
            requests := σ.requests ++ [utf8 "/status.json"] }) := by
  unfold Exporter.fetched at hs
  unfold Exporter.scrape
  cases hf : e.fetch (utf8 "/status.json") with
  | error err => simp [State.request]
  | ok body =>
    rw [hf] at hs
    simp only at hs
    simp [hs, State.request]

/-- When the status fetch succeeds and the temperature fetch fails, `scrape` has sent the
five status samples when it returns 0. -/
theorem scrape_temp_failed (e : Exporter) (dec : Decoders) (σ : State) (bs : List Nat)
    (hs : e.fetched "/status.json" = some bs) (ht : e.fetched "/temp.json" = none) :
    e.scrape dec σ =
      (0, { totalScrapes := σ.totalScrapes + 1,
            ch := σ.ch ++ statusSamples (decodedStatus dec bs),
            requests := σ.requests ++ [utf8 "/status.json", utf8 "/temp.json"] }) := by
  unfold Exporter.fetched at hs ht
  unfold Exporter.scrape
  cases hf : e.fetch (utf8 "/status.json") with
  | error err => rw [hf] at hs; simp at hs
  | ok body =>
    rw [hf] at hs
    simp only at hs
    cases hg : e.fetch (utf8 "/temp.json") with
    | error err =>
      simp [hs, State.request, State.send, statusSamples, decodedStatus, MustNewConstMetric]
    | ok body' =>
      rw [hg] at ht
      simp only at ht
      simp [hs, ht, State.request, State.send, statusSamples, decodedStatus,
        MustNewConstMetric]

/-- When both fetches succeed, `scrape` sends the five status samples, then the three
temperature samples, and returns 1. -/
theorem scrape_both_fetched (e : Exporter) (dec : Decoders) (σ : State) (bs bt : List Nat)
    (hs : e.fetched "/status.json" = some bs) (ht : e.fetched "/temp.json" = some bt) :
    e.scrape dec σ =
      (1, { totalScrapes := σ.totalScrapes + 1,
            ch := σ.ch ++ (statusSamples (decodedStatus dec bs) ++
              temperatureSamples (decodedTemperature dec bt)),
            requests := σ.requests ++ [utf8 "/status.json", utf8 "/temp.json"] }) := by
  unfold Exporter.fetched at hs ht
  unfold Exporter.scrape
  cases hf : e.fetch (utf8 "/status.json") with
  | error err => rw [hf] at hs; simp at hs
  | ok body =>
    rw [hf] at hs
    simp only at hs
    cases hg : e.fetch (utf8 "/temp.json") with
    | error err => rw [hg] at ht; simp at ht
    | ok body' =>
      rw [hg] at ht
      simp only at ht
      simp [hs, ht, State.request, State.send, statusSamples, temperatureSamples,
        decodedStatus, decodedTemperature, MustNewConstMetric]

theorem Collect_eq (e : Exporter) (dec : Decoders) (σ : State) :
    e.Collect dec σ =
      { (e.scrape dec σ).2 with
        ch := (e.scrape dec σ).2.ch ++ [⟨.bobcatUp, (e.scrape dec σ).1⟩] } := by
  simp [Exporter.Collect, State.send, MustNewConstMetric]

theorem float64_one_ne_zero : (1 : float64) ≠ 0 := by decide


/-! ## C6, C7: the status and unit coercions -/

/-- C6: `parseStatus(s)` is 1 exactly when `s` is the literal `"Synced"` (the bytes
`53 79 6e 63 65 64`), and 0 for every other string; in particular the empty string,
`"synced"` and `"SYNCED"` give 0. -/
theorem parseStatus_synced_iff (s : GoString) :
    (parseStatus s = 1 ↔ s = utf8 "Synced") ∧ (parseStatus s = 0 ↔ s ≠ utf8 "Synced") ∧
      utf8 "Synced" = [0x53, 0x79, 0x6e, 0x63, 0x65, 0x64] ∧
      parseStatus [] = 0 ∧ parseStatus (utf8 "synced") = 0 ∧
      parseStatus (utf8 "SYNCED") = 0 := by
  refine ⟨?_, ?_, by decide, by decide, by decide, by decide⟩
  · unfold parseStatus
    split
    · simp [*]
    · simp [*, float64_one_ne_zero.symm]
  · unfold parseStatus
    split
    · simp [*, float64_one_ne_zero]
    · simp [*]

/-- C7: `parseTemperature(s)` is 1 exactly when `s` is the literal `"°C"` (the bytes
`c2 b0 43`), and 0 for every other unit string; in particular the empty string, `"°F"`
and `"C"` give 0. -/
theorem parseTemperature_celsius_iff (s : GoString) :
    (parseTemperature s = 1 ↔ s = utf8 "°C") ∧ (parseTemperature s = 0 ↔ s ≠ utf8 "°C") ∧
      utf8 "°C" = [0xc2, 0xb0, 0x43] ∧
      parseTemperature [] = 0 ∧ parseTemperature (utf8 "°F") = 0 ∧
      parseTemperature (utf8 "C") = 0 := by
  refine ⟨?_, ?_, by decide, by decide, by decide, by decide⟩
  · unfold parseTemperature
    split
    · simp [*]
    · simp [*, float64_one_ne_zero.symm]
  · unfold parseTemperature
    split
    · simp [*, float64_one_ne_zero]
    · simp [*]

/-! ## C10: the fetcher -/

/-- C10: when the request itself succeeds with a response, `fetchHTTP` returns an error
exactly when the status code is outside 200..299; for a code inside that range it returns
the response body, and otherwise the error names the status code. -/
theorem fetchHTTP_error_iff_status (Get : GoString → Except FetchError Response)
    (uri endpoint : GoString) (resp : Response) (h : Get (uri ++ endpoint) = .ok resp) :
    ((∃ err, fetchHTTP Get uri endpoint = .error err) ↔
        ¬ (200 ≤ resp.StatusCode ∧ resp.StatusCode ≤ 299)) ∧
      fetchHTTP Get uri endpoint =
        if 200 ≤ resp.StatusCode ∧ resp.StatusCode ≤ 299 then .ok resp.Body
        else .error (.httpStatus resp.StatusCode) := by
  have hr : (resp.StatusCode ≥ 200 ∧ resp.StatusCode < 300) ↔
      (200 ≤ resp.StatusCode ∧ resp.StatusCode ≤ 299) := by omega
  by_cases hc : 200 ≤ resp.StatusCode ∧ resp.StatusCode ≤ 299
  · have hc' := hr.mpr hc
    simp [fetchHTTP, h, hc, hc']
  · have hc' : ¬ (resp.StatusCode ≥ 200 ∧ resp.StatusCode < 300) := fun h' => hc (hr.mp h')
    simp [fetchHTTP, h, hc, hc']

/-- The fetcher on a `503` and on a `200` response. -/
theorem fetchHTTP_error_iff_status_witness :
    fetchHTTP (fun _ => respond 503 []) (utf8 "http://localhost:9292") (utf8 "/temp.json") =
        .error (.httpStatus 503) ∧
      fetchHTTP (fun _ => respond 200 scenarioTempBody) (utf8 "http://localhost:9292")
        (utf8 "/temp.json") = .ok { ReadAll := some scenarioTempBody } := by
  constructor
  · have h := (fetchHTTP_error_iff_status (fun _ => respond 503 []) (utf8 "http://localhost:9292")
      (utf8 "/temp.json") { StatusCode := 503, Body := { ReadAll := some [] } } rfl).2
    rw [h]; simp
  · have h := (fetchHTTP_error_iff_status (fun _ => respond 200 scenarioTempBody)
      (utf8 "http://localhost:9292") (utf8 "/temp.json")
      { StatusCode := 200, Body := { ReadAll := some scenarioTempBody } } rfl).2
    rw [h]; simp

/-! ## C5, C2, C3, C4: what one collection sends -/

/-- C5: when the `/status.json` fetch fails (the fetch itself or the reading of its body),
`scrape` returns 0, `/status.json` is the only endpoint requested (`/temp.json` is never
asked for), and the only sample `Collect` sends is `up = 0`. -/
theorem collect_status_fetch_failed (e : Exporter) (dec : Decoders) (σ : State)
    (hs : e.fetched "/status.json" = none) :
    (e.scrape dec σ).1 = 0 ∧
      sent σ (e.Collect dec σ) = [⟨.bobcatUp, 0⟩] ∧
      requested σ (e.Collect dec σ) = [utf8 "/status.json"] ∧
      utf8 "/temp.json" ∉ requested σ (e.Collect dec σ) := by
  have h := scrape_status_failed e dec σ hs
  have hc := Collect_eq e dec σ
  rw [h] at hc
  have h1 : sent σ (e.Collect dec σ) = [⟨.bobcatUp, 0⟩] :=
    sent_append _ _ _ (by rw [hc])
  have h2 : requested σ (e.Collect dec σ) = [utf8 "/status.json"] :=
    requested_append _ _ _ (by rw [hc])
  refine ⟨by rw [h], h1, h2, ?_⟩
  rw [h2]
  decide

/-- A device that answers `/status.json` with `404`: the collection sends `up = 0` alone and
never asks for `/temp.json`. -/
theorem collect_status_fetch_failed_witness :
    (device (respond 404 scenarioStatusBody) (respond 200 scenarioTempBody)).fetched
        "/status.json" = none ∧
      sent State.init ((device (respond 404 scenarioStatusBody)
        (respond 200 scenarioTempBody)).Collect scenarioDecoders State.init) =
        [⟨.bobcatUp, 0⟩] :=
  ⟨by decide, (collect_status_fetch_failed _ scenarioDecoders State.init (by decide)).2.1⟩

/-- C2, as the specification states it, fails: with the status body of the scenario and a
`503` answer for `/temp.json`, the status fetch succeeds, the temperature fetch fails, and
`scrape` has sent five samples when it returns 0. -/
theorem scrape_temp_failed_sends_status :
    (device (respond 200 scenarioStatusBody) (respond 503 [])).fetched "/status.json" =
        some scenarioStatusBody ∧
      (device (respond 200 scenarioStatusBody) (respond 503 [])).fetched "/temp.json" = none ∧
      ((device (respond 200 scenarioStatusBody) (respond 503 [])).scrape scenarioDecoders
        State.init).1 = 0 ∧
      sent State.init ((device (respond 200 scenarioStatusBody) (respond 503 [])).scrape
        scenarioDecoders State.init).2 =
        [⟨.bobcatStatus, 1⟩, ⟨.bobcatStatusGap, 0⟩, ⟨.bobcatStatusMinerHeight, 1234⟩,
          ⟨.bobcatStatusBlockchainHeight, 1234⟩, ⟨.bobcatStatusEpoch, 42⟩] := by
  decide

/-- C2, amended: when the `/status.json` fetch succeeds and the `/temp.json` fetch fails,
`scrape` returns 0 after it has sent the five status samples (status, status_gap,
status_miner_height, status_blockchain_height, status_epoch, computed from the decoded
status document) and no temperature sample; `Collect` then sends `up = 0`. -/
theorem scrape_temp_fetch_failed (e : Exporter) (dec : Decoders) (σ : State) (bs : List Nat)
    (hs : e.fetched "/status.json" = some bs) (ht : e.fetched "/temp.json" = none) :
    (e.scrape dec σ).1 = 0 ∧
      sent σ (e.scrape dec σ).2 =
        [⟨.bobcatStatus, parseStatus (decodedStatus dec bs).Status⟩,
          ⟨.bobcatStatusGap, parseString (decodedStatus dec bs).Gap⟩,
          ⟨.bobcatStatusMinerHeight, parseString (decodedStatus dec bs).MinerHeight⟩,
          ⟨.bobcatStatusBlockchainHeight, parseString (decodedStatus dec bs).BlockchainHeight⟩,
          ⟨.bobcatStatusEpoch, parseString (decodedStatus dec bs).Epoch⟩] ∧
      sent σ (e.Collect dec σ) = statusSamples (decodedStatus dec bs) ++ [⟨.bobcatUp, 0⟩] := by
  have h := scrape_temp_failed e dec σ bs hs ht
  have hc := Collect_eq e dec σ
  rw [h] at hc
  refine ⟨by rw [h], ?_, ?_⟩
  · rw [h]
    exact sent_append _ _ _ rfl
  · exact sent_append _ _ _ (by rw [hc]; simp)

/-- The scenario with a `503` answer for `/temp.json`: five status samples, then `up = 0`. -/
theorem scrape_temp_fetch_failed_witness :
    (device (respond 200 scenarioStatusBody) (respond 503 [])).fetched "/temp.json" = none ∧
      sent State.init ((device (respond 200 scenarioStatusBody) (respond 503 [])).Collect
        scenarioDecoders State.init) =
        statusSamples (decodedStatus scenarioDecoders scenarioStatusBody) ++ [⟨.bobcatUp, 0⟩] :=
  ⟨by decide,
    (scrape_temp_fetch_failed _ scenarioDecoders State.init scenarioStatusBody (by decide)
      (by decide)).2.2⟩

/-- C3: `Collect` sends exactly one `up` sample; its value is 1 exactly when both the
`/status.json` fetch and the `/temp.json` fetch (reading the bodies included) succeed, and 0
exactly when one of them does not. -/
theorem collect_up_iff_both_fetched (e : Exporter) (dec : Decoders) (σ : State) :
    (sent σ (e.Collect dec σ)).filter (fun m => m.desc = .bobcatUp) =
        [⟨.bobcatUp, (e.scrape dec σ).1⟩] ∧
      ((e.scrape dec σ).1 = 1 ↔
        ((e.fetched "/status.json").isSome ∧ (e.fetched "/temp.json").isSome)) ∧
      ((e.scrape dec σ).1 = 0 ↔
        ¬ ((e.fetched "/status.json").isSome ∧ (e.fetched "/temp.json").isSome)) := by
  have hc := Collect_eq e dec σ
  cases hs : e.fetched "/status.json" with
  | none =>
    have h := scrape_status_failed e dec σ hs
    rw [h] at hc
    have h1 : sent σ (e.Collect dec σ) = [⟨.bobcatUp, 0⟩] := sent_append _ _ _ (by rw [hc])
    rw [h1, h]
    simp [float64_one_ne_zero.symm]
  | some bs =>
    cases ht : e.fetched "/temp.json" with
    | none =>
      have h := scrape_temp_failed e dec σ bs hs ht
      rw [h] at hc
      have h1 : sent σ (e.Collect dec σ) =
          statusSamples (decodedStatus dec bs) ++ [⟨.bobcatUp, 0⟩] :=
        sent_append _ _ _ (by rw [hc]; simp)
      rw [h1, h]
      simp [statusSamples, float64_one_ne_zero.symm]
    | some bt =>
      have h := scrape_both_fetched e dec σ bs bt hs ht
      rw [h] at hc
      have h1 : sent σ (e.Collect dec σ) =
          statusSamples (decodedStatus dec bs) ++
            temperatureSamples (decodedTemperature dec bt) ++ [⟨.bobcatUp, 1⟩] :=
        sent_append _ _ _ (by rw [hc]; simp)
      rw [h1, h]
      simp [statusSamples, temperatureSamples, float64_one_ne_zero]

/-- C4, as the specification states it, fails: with both fetches successful and a decoded
temperature document whose `temp0` is `2 ^ 53 + 1 = 9007199254740993`, the sample sent for
temperature_temp0 is `9007199254740992`, not `temp0`; the gauge is a `float64` and the
source sends `float64(temperature.Temp0)`. -/
theorem collect_temp0_rounded :
    (device (respond 200 scenarioStatusBody) (respond 200 largeTempBody)).fetched
        "/status.json" = some scenarioStatusBody ∧
      (device (respond 200 scenarioStatusBody) (respond 200 largeTempBody)).fetched
        "/temp.json" = some largeTempBody ∧
      json.checkValid largeTempBody = true ∧
      (decodedTemperature largeTempDecoders largeTempBody).Temp0 = 9007199254740993 ∧
      ((sent State.init ((device (respond 200 scenarioStatusBody)
          (respond 200 largeTempBody)).Collect largeTempDecoders State.init)).filter
        (fun m => m.desc = .bobcatTemperatureTemp0)).map (fun m => m.value.val) =
        [9007199254740992] ∧
      (9007199254740992 : Int) ≠ (decodedTemperature largeTempDecoders largeTempBody).Temp0 := by
  decide

/-- C4, amended: when both fetches succeed, one collection sends exactly nine samples, named
`bobcat_status`, ..., `bobcat_up`, in this order: status = parseStatus(status),
status_gap = parseString(gap), status_miner_height = parseString(miner_height),
status_blockchain_height = parseString(blockchain_height), status_epoch = parseString(epoch),
temperature_unit = parseTemperature(unit), temperature_temp0 = float64(temp0),
temperature_temp1 = float64(temp1) (the nearest `float64`, which is temp0 or temp1 itself
whenever its magnitude is at most `2 ^ 53`), and up = 1, all computed from the decoded
bodies.  When the decoded documents are those of the scenario, status
{Synced, 0, 1234, 1234, 42} and temperature {45, 50, °C}, the nine values are
1, 0, 1234, 1234, 42, 1, 45, 50, 1. -/
theorem collect_both_fetched (e : Exporter) (dec : Decoders) (σ : State) (bs bt : List Nat)
    (hs : e.fetched "/status.json" = some bs) (ht : e.fetched "/temp.json" = some bt) :
    sent σ (e.Collect dec σ) =
        [⟨.bobcatStatus, parseStatus (decodedStatus dec bs).Status⟩,
          ⟨.bobcatStatusGap, parseString (decodedStatus dec bs).Gap⟩,
          ⟨.bobcatStatusMinerHeight, parseString (decodedStatus dec bs).MinerHeight⟩,
          ⟨.bobcatStatusBlockchainHeight, parseString (decodedStatus dec bs).BlockchainHeight⟩,
          ⟨.bobcatStatusEpoch, parseString (decodedStatus dec bs).Epoch⟩,
          ⟨.bobcatTemperatureUnit, parseTemperature (decodedTemperature dec bt).Unit⟩,
          ⟨.bobcatTemperatureTemp0, float64.ofInt (decodedTemperature dec bt).Temp0⟩,
          ⟨.bobcatTemperatureTemp1, float64.ofInt (decodedTemperature dec bt).Temp1⟩,
          ⟨.bobcatUp, 1⟩] ∧
      (sent σ (e.Collect dec σ)).map (fun m => m.desc.fqName) =
        ["bobcat_status", "bobcat_status_gap", "bobcat_status_miner_height",
          "bobcat_status_blockchain_height", "bobcat_status_epoch", "bobcat_temperature_unit",
          "bobcat_temperature_temp0", "bobcat_temperature_temp1", "bobcat_up"] ∧
      (∀ v : Int, v.natAbs ≤ 2 ^ 53 → (float64.ofInt v).val = v) ∧
      (decodedStatus dec bs = scenarioStatus ∧ decodedTemperature dec bt = scenarioTemperature →
        sent σ (e.Collect dec σ) =
          [⟨.bobcatStatus, 1⟩, ⟨.bobcatStatusGap, 0⟩, ⟨.bobcatStatusMinerHeight, 1234⟩,
            ⟨.bobcatStatusBlockchainHeight, 1234⟩, ⟨.bobcatStatusEpoch, 42⟩,
            ⟨.bobcatTemperatureUnit, 1⟩, ⟨.bobcatTemperatureTemp0, 45⟩,
            ⟨.bobcatTemperatureTemp1, 50⟩, ⟨.bobcatUp, 1⟩]) := by
  have h := scrape_both_fetched e dec σ bs bt hs ht
  have hc := Collect_eq e dec σ
  rw [h] at hc
  have h1 : sent σ (e.Collect dec σ) =
      statusSamples (decodedStatus dec bs) ++
        temperatureSamples (decodedTemperature dec bt) ++ [⟨.bobcatUp, 1⟩] :=
    sent_append _ _ _ (by rw [hc]; simp)
  refine ⟨by rw [h1]; rfl, by rw [h1]; simp [statusSamples, temperatureSamples]; decide,
    fun v hv => by rw [float64.ofInt_exact v hv], ?_⟩
  rintro ⟨h2, h3⟩
  rw [h1, h2, h3]
  decide

/-- The scenario of the specification: both bodies are served with `200`, the decoded
documents are those of the scenario, and the collection sends
1, 0, 1234, 1234, 42, 1, 45, 50, 1. -/
theorem collect_both_fetched_witness :
    (device (respond 200 scenarioStatusBody) (respond 200 scenarioTempBody)).fetched
        "/status.json" = some scenarioStatusBody ∧
      (device (respond 200 scenarioStatusBody) (respond 200 scenarioTempBody)).fetched
        "/temp.json" = some scenarioTempBody ∧
      decodedStatus scenarioDecoders scenarioStatusBody = scenarioStatus ∧
      decodedTemperature scenarioDecoders scenarioTempBody = scenarioTemperature ∧
      sent State.init ((device (respond 200 scenarioStatusBody)
          (respond 200 scenarioTempBody)).Collect scenarioDecoders State.init) =
        [⟨.bobcatStatus, 1⟩, ⟨.bobcatStatusGap, 0⟩, ⟨.bobcatStatusMinerHeight, 1234⟩,
          ⟨.bobcatStatusBlockchainHeight, 1234⟩, ⟨.bobcatStatusEpoch, 42⟩,
          ⟨.bobcatTemperatureUnit, 1⟩, ⟨.bobcatTemperatureTemp0, 45⟩,
          ⟨.bobcatTemperatureTemp1, 50⟩, ⟨.bobcatUp, 1⟩] :=
  ⟨by decide, by decide, by decide, by decide,
    (collect_both_fetched _ scenarioDecoders State.init scenarioStatusBody scenarioTempBody
      (by decide) (by decide)).2.2.2 ⟨by decide, by decide⟩⟩

/-! ## C8: the scrape counter -/

theorem scrape_totalScrapes (e : Exporter) (dec : Decoders) (σ : State) :
    (e.scrape dec σ).2.totalScrapes = σ.totalScrapes + 1 := by
  cases hs : e.fetched "/status.json" with
  | none => rw [scrape_status_failed e dec σ hs]
  | some bs =>
    cases ht : e.fetched "/temp.json" with
    | none => rw [scrape_temp_failed e dec σ bs hs ht]
    | some bt => rw [scrape_both_fetched e dec σ bs bt hs ht]

theorem Collect_totalScrapes (e : Exporter) (dec : Decoders) (σ : State) :
    (e.Collect dec σ).totalScrapes = σ.totalScrapes + 1 := by
  rw [Collect_eq]
  exact scrape_totalScrapes e dec σ

/-- C8: every scrape adds exactly one to `total_scrapes`, whatever the outcome of the two
fetches, and so does every collection; after any sequence of collections the counter has
grown by the number of collections, so it never decreases. -/
theorem totalScrapes_counts_scrapes :
    (∀ (e : Exporter) (dec : Decoders) (σ : State),
        (e.scrape dec σ).2.totalScrapes = σ.totalScrapes + 1 ∧
        (e.Collect dec σ).totalScrapes = σ.totalScrapes + 1) ∧
      (∀ (dec : Decoders) (es : List Exporter) (σ : State),
        (collections dec es σ).totalScrapes = σ.totalScrapes + es.length ∧
        σ.totalScrapes ≤ (collections dec es σ).totalScrapes) := by
  refine ⟨fun e dec σ => ⟨scrape_totalScrapes e dec σ, Collect_totalScrapes e dec σ⟩, ?_⟩
  intro dec es
  induction es with
  | nil => intro σ; simp [collections]
  | cons e es ih =>
    intro σ
    have h := (ih (e.Collect dec σ)).1
    rw [Collect_totalScrapes] at h
    simp only [collections, List.length_cons]
    omega

/-! ## C9: malformed bodies -/

theorem Unmarshal_malformed {α : Type} (d : json.Decoder α) (data : List Nat) (v : α)
    (h : json.checkValid data = false) : json.Unmarshal d data v = (v, true) := by
  simp [json.Unmarshal, h]

/-- C9: a body that is not valid JSON does not fail the scrape.  When the `/status.json`
fetch succeeds, `scrape` sends the five status samples and goes on to request `/temp.json`;
if the status body is malformed the decoded document is the zero value (every field the
empty string) and the five samples are 0.  When the `/temp.json` fetch succeeds too,
`scrape` returns 1 whatever the bodies are; if the temperature body is malformed the decoded
document is the zero value (empty strings, `temp0 = temp1 = 0`) and the three temperature
samples are 0. -/
theorem scrape_tolerates_malformed_json (e : Exporter) (dec : Decoders) (σ : State)
    (bs : List Nat) (hs : e.fetched "/status.json" = some bs) :
    (sent σ (e.scrape dec σ).2).take 5 = statusSamples (decodedStatus dec bs) ∧
      requested σ (e.scrape dec σ).2 = [utf8 "/status.json", utf8 "/temp.json"] ∧
      (json.checkValid bs = false →
        decodedStatus dec bs = status.zero ∧
        statusSamples (decodedStatus dec bs) =
          [⟨.bobcatStatus, 0⟩, ⟨.bobcatStatusGap, 0⟩, ⟨.bobcatStatusMinerHeight, 0⟩,
            ⟨.bobcatStatusBlockchainHeight, 0⟩, ⟨.bobcatStatusEpoch, 0⟩]) ∧
      ∀ bt, e.fetched "/temp.json" = some bt →
        (e.scrape dec σ).1 = 1 ∧
        sent σ (e.scrape dec σ).2 =
          statusSamples (decodedStatus dec bs) ++
            temperatureSamples (decodedTemperature dec bt) ∧
        (json.checkValid bt = false →
          decodedTemperature dec bt = temperature.zero ∧
          temperatureSamples (decodedTemperature dec bt) =
            [⟨.bobcatTemperatureUnit, 0⟩, ⟨.bobcatTemperatureTemp0, 0⟩,
              ⟨.bobcatTemperatureTemp1, 0⟩]) := by
  have hz : json.checkValid bs = false →
      decodedStatus dec bs = status.zero ∧
      statusSamples (decodedStatus dec bs) =
        [⟨.bobcatStatus, 0⟩, ⟨.bobcatStatusGap, 0⟩, ⟨.bobcatStatusMinerHeight, 0⟩,
          ⟨.bobcatStatusBlockchainHeight, 0⟩, ⟨.bobcatStatusEpoch, 0⟩] := by
    intro hv
    have hd : decodedStatus dec bs = status.zero := by
      simp [decodedStatus, Unmarshal_malformed _ _ _ hv]
    refine ⟨hd, ?_⟩
    rw [hd]
    decide
  have hzt : ∀ bt, json.checkValid bt = false →
      decodedTemperature dec bt = temperature.zero ∧
      temperatureSamples (decodedTemperature dec bt) =
        [⟨.bobcatTemperatureUnit, 0⟩, ⟨.bobcatTemperatureTemp0, 0⟩,
          ⟨.bobcatTemperatureTemp1, 0⟩] := by
    intro bt hv
    have hd : decodedTemperature dec bt = temperature.zero := by
      simp [decodedTemperature, Unmarshal_malformed _ _ _ hv]
    refine ⟨hd, ?_⟩
    rw [hd]
    decide
  cases ht : e.fetched "/temp.json" with
  | none =>
    have h := scrape_temp_failed e dec σ bs hs ht
    rw [h]
    refine ⟨?_, requested_append _ _ _ rfl, hz, ?_⟩
    · rw [sent_append _ _ (statusSamples (decodedStatus dec bs)) rfl]
      simp [statusSamples]
    · intro bt hbt
      cases hbt
  | some bt =>
    have h := scrape_both_fetched e dec σ bs bt hs ht
    rw [h]
    have hsent := sent_append σ
      { totalScrapes := σ.totalScrapes + 1,
        ch := σ.ch ++ (statusSamples (decodedStatus dec bs) ++
          temperatureSamples (decodedTemperature dec bt)),
        requests := σ.requests ++ [utf8 "/status.json", utf8 "/temp.json"] }
      (statusSamples (decodedStatus dec bs) ++ temperatureSamples (decodedTemperature dec bt))
      rfl
    refine ⟨?_, requested_append _ _ _ rfl, hz, ?_⟩
    · rw [hsent]
      simp [statusSamples]
    · intro bt' hbt'
      cases hbt'
      exact ⟨rfl, hsent, hzt bt⟩

/-- A device that serves an HTML page for `/status.json` and the text `oops` for
`/temp.json`, both with `200`: neither body is valid JSON, every status and temperature
sample is 0, and the scrape returns 1. -/
theorem scrape_tolerates_malformed_json_witness :
    json.checkValid (utf8 "<html>") = false ∧ json.checkValid (utf8 "oops") = false ∧
      ((device (respond 200 (utf8 "<html>")) (respond 200 (utf8 "oops"))).scrape
        scenarioDecoders State.init).1 = 1 ∧
      sent State.init ((device (respond 200 (utf8 "<html>")) (respond 200 (utf8 "oops"))).scrape
        scenarioDecoders State.init).2 =
        statusSamples status.zero ++ temperatureSamples temperature.zero := by
  have h := scrape_tolerates_malformed_json
    (device (respond 200 (utf8 "<html>")) (respond 200 (utf8 "oops"))) scenarioDecoders
    State.init (utf8 "<html>") (by decide)
  have hs := (h.2.2.1 (by decide)).1
  have h' := h.2.2.2 (utf8 "oops") (by decide)
  have ht := (h'.2.2 (by decide)).1
  refine ⟨by decide, by decide, h'.1, ?_⟩
  rw [h'.2.1, hs, ht]

end Bobcat
